import Mathlib

/-!
# Pipeline dashboard state layer (`frontend-react/src/App.jsx`)

A shallow embedding of the state that the `App` component keeps and of the
updates `triggerPipeline` performs on it: the four stage statuses, the retry
counts, the validation warnings, the bounded history and the statistics that
are derived from the history.

React state is explicit state passing.  One call of `triggerPipeline` is cut
at its `await`: the part before it (`triggerPipelineStart`), the continuation
after a successful response (`triggerPipelineResolved`), the `catch` branch
(`triggerPipelineRejected`) and the three delayed callbacks.  Values that the
JavaScript closure reads from the render in which the button was clicked are
stored in `PendingCall`.  Clock readings and `Math.random()` draws are
arguments.

`Event`, `step` and `exec` let a delayed callback run at any moment.
`Scheduled`, `Action`, `act` and `perform` add the list of pending timers:
a successful response sets three of them, and a callback runs only when it
is pending and the timer rules allow it.  `fetchAuditLogs` is the audit
projection of the history.
-/

namespace App

/-! ## Data model -/

/-- The `pipelineStatus` object: one status string per stage. -/
structure PipelineStatus where
  collector : String
  validator : String
  processor : String
  reporter : String
deriving DecidableEq, Repr

/-- The `retryAttempts` object. -/
structure RetryAttempts where
  weather : Int
  bitcoin : Int
deriving DecidableEq, Repr

/-- The part of `response.data` that `triggerPipeline` reads. -/
structure ResponseData where
  execution_id : String
  version : String
deriving DecidableEq, Repr

/-- One element of `history`.  The success literal (lines 153-161) has no
`error` key and the error literal (lines 173-179) has no `version`,
`retries` or `validationWarnings` key; an absent key is `none`. -/
structure HistoryEntry where
  location : String
  timestamp : String
  status : String
  executionId : String
  version : Option String
  retries : Option Int
  validationWarnings : Option Nat
  error : Option String
deriving DecidableEq, Repr

/-- The `stats` object. -/
structure Stats where
  total : Nat
  successful : Nat
  failed : Nat
deriving DecidableEq, Repr

/-- The body sent with `axios.post` (lines 116-119). -/
structure Request where
  location : String
  country : Option String
deriving DecidableEq, Repr

/-- What a suspended `triggerPipeline` call holds across its `await`: the
destructured `loc` and `country`, the two sampled retry counts, and the
`validationErrors` array of the render whose closure is running. -/
structure PendingCall where
  loc : String
  country : Option String
  retryWeather : Int
  retryBitcoin : Int
  validationErrors : List String
deriving DecidableEq, Repr

/-- The component state that `triggerPipeline` reads or writes, and the call
that is suspended at the `await`, when there is one. -/
structure AppState where
  location : String
  loading : Bool
  result : Option ResponseData
  history : List HistoryEntry
  pipelineStatus : PipelineStatus
  retryAttempts : RetryAttempts
  validationErrors : List String
  inflight : Option PendingCall
deriving DecidableEq, Repr

/-- The state after the `useState` initialisers (lines 6-23). -/
def initialState : AppState :=
  { location := "London,uk"
    loading := false
    result := none
    history := []
    pipelineStatus :=
      { collector := "pending", validator := "pending",
        processor := "pending", reporter := "pending" }
    retryAttempts := { weather := 0, bitcoin := 0 }
    validationErrors := []
    inflight := none }

/-! ## Strings -/

/-- JavaScript `s.split(',')` on the characters of `s`, as the first piece
and the remaining pieces (the result array is never empty). -/
def splitComma : List Char → List Char × List (List Char)
  | [] => ([], [])
  | c :: cs =>
    if c = ',' then ([], (splitComma cs).1 :: (splitComma cs).2)
    else (c :: (splitComma cs).1, (splitComma cs).2)

/-- The `loc` of `const [loc, country] = location.split(',')`. -/
def splitLoc (location : String) : String :=
  String.mk (splitComma location.data).1

/-- The `country` of `const [loc, country] = location.split(',')`;
`undefined` is `none`. -/
def splitCountry (location : String) : Option String :=
  (splitComma location.data).2.head?.map String.mk

/-- The characters of a string that stand before its first comma (all of
them when it has none). -/
def beforeComma (location : String) : String :=
  String.mk (location.data.takeWhile (fun c => decide (c ≠ ',')))

/-! ## History and statistics -/

/-- The history update `prev => [entry, ...prev].slice(0, 20)`. -/
def appendHistory (entry : HistoryEntry) (prev : List HistoryEntry) :
    List HistoryEntry :=
  (entry :: prev).take 20

/-- The statistics effect (lines 84-91). -/
def calculateStatistics (history : List HistoryEntry) : Stats :=
  { total := history.length
    successful := (history.filter (fun h => h.status == "success")).length
    failed := (history.filter (fun h => h.status == "error")).length }

/-! ## Stage statuses -/

/-- The status object set at the start of a run (lines 102-107). -/
def resetStatus : PipelineStatus :=
  { collector := "loading", validator := "pending",
    processor := "pending", reporter := "pending" }

/-- Stage 1 update (line 123). -/
def collectorAdvance (prev : PipelineStatus) : PipelineStatus :=
  { prev with collector := "success", validator := "loading" }

/-- Stage 2 update (line 132). -/
def validatorAdvance (prev : PipelineStatus) : PipelineStatus :=
  { prev with validator := "success", processor := "loading" }

/-- Stage 3 update (line 137). -/
def processorAdvance (prev : PipelineStatus) : PipelineStatus :=
  { prev with processor := "success", reporter := "loading" }

/-- Stage 4 update (lines 142-147): it ignores the previous object. -/
def reporterAdvance (_prev : PipelineStatus) : PipelineStatus :=
  { collector := "success", validator := "success",
    processor := "success", reporter := "success" }

/-- The four stage keys. -/
inductive Stage
  | collector
  | validator
  | processor
  | reporter
deriving DecidableEq, Repr

/-- The array `stages` of line 167. -/
def stages : List Stage :=
  [Stage.collector, Stage.validator, Stage.processor, Stage.reporter]

/-- Property read `prev[s]`. -/
def PipelineStatus.get (p : PipelineStatus) : Stage → String
  | Stage.collector => p.collector
  | Stage.validator => p.validator
  | Stage.processor => p.processor
  | Stage.reporter => p.reporter

/-- Object spread with one computed key, `{ ...prev, [s]: v }`. -/
def PipelineStatus.set (p : PipelineStatus) (s : Stage) (v : String) :
    PipelineStatus :=
  match s with
  | Stage.collector => { p with collector := v }
  | Stage.validator => { p with validator := v }
  | Stage.processor => { p with processor := v }
  | Stage.reporter => { p with reporter := v }

/-- The `failedStage` of line 168:
`stages.find(s => prev[s] === 'loading') || 'collector'`. -/
def failedStage (prev : PipelineStatus) : Stage :=
  (stages.find? (fun s => prev.get s == "loading")).getD Stage.collector

/-- The status update of the `catch` branch (lines 165-170). -/
def markFailed (prev : PipelineStatus) : PipelineStatus :=
  prev.set (failedStage prev) "error"

/-! ## `triggerPipeline` -/

/-- `Math.floor(Math.random() * 2)` for a draw `r`. -/
def retrySample (r : ℚ) : Int :=
  Int.floor (r * 2)

/-- The double nearest to the literal `0.7`. -/
def validationThreshold : ℚ :=
  6305039478318694 / 9007199254740992

/-- `Math.random() > 0.7` for a draw `r`. -/
def hasValidationIssue (r : ℚ) : Bool :=
  decide (validationThreshold < r)

/-- The two warnings of line 130. -/
def validationWarningStrings : List String :=
  ["Temperature out of normal range", "Bitcoin rate fluctuation detected"]

/-- The object literal of lines 153-161. -/
def successEntry (c : PendingCall) (data : ResponseData) (now : String) :
    HistoryEntry :=
  { location := c.loc
    timestamp := now
    status := "success"
    executionId := data.execution_id
    version := some data.version
    retries := some (c.retryWeather + c.retryBitcoin)
    validationWarnings := some c.validationErrors.length
    error := none }

/-- The object literal of lines 173-179. -/
def errorEntry (c : PendingCall) (message : String) (now : String) :
    HistoryEntry :=
  { location := c.loc
    timestamp := now
    status := "error"
    executionId := "N/A"
    version := none
    retries := none
    validationWarnings := none
    error := some message }

/-- The request body of lines 116-119. -/
def requestOf (c : PendingCall) : Request :=
  { location := c.loc, country := c.country }

/-- Lines 96-107: the state writes before the `try`. -/
def resetRun (s : AppState) : AppState :=
  { s with
    loading := true
    validationErrors := []
    retryAttempts := { weather := 0, bitcoin := 0 }
    pipelineStatus := resetStatus }

/-- Lines 96-119: `triggerPipeline` up to its `await`, with the two
`Math.random()` draws `rw` and `rb`.  The closure reads `location` and
`validationErrors` from the state the button was rendered with. -/
def triggerPipelineStart (rw rb : ℚ) (s : AppState) : AppState :=
  { resetRun s with
    retryAttempts := { weather := retrySample rw, bitcoin := retrySample rb }
    inflight := some
      { loc := splitLoc s.location
        country := splitCountry s.location
        retryWeather := retrySample rw
        retryBitcoin := retrySample rb
        validationErrors := s.validationErrors } }

/-- Lines 121-161 and 181: the continuation after a successful response.
The delayed callbacks are scheduled here and run as separate steps. -/
def triggerPipelineResolved (c : PendingCall) (data : ResponseData)
    (now : String) (s : AppState) : AppState :=
  { s with
    pipelineStatus := collectorAdvance s.pipelineStatus
    result := some data
    history := appendHistory (successEntry c data now) s.history
    loading := false
    inflight := none }

/-- Lines 163-181: the `catch` branch and the `finally`. -/
def triggerPipelineRejected (c : PendingCall) (message : String)
    (now : String) (s : AppState) : AppState :=
  { s with
    pipelineStatus := markFailed s.pipelineStatus
    history := appendHistory (errorEntry c message now) s.history
    loading := false
    inflight := none }

/-- The callback of lines 126-133 with its `Math.random()` draw `rv`. -/
def validatorTimer (rv : ℚ) (s : AppState) : AppState :=
  { s with
    validationErrors :=
      if hasValidationIssue rv then validationWarningStrings
      else s.validationErrors
    pipelineStatus := validatorAdvance s.pipelineStatus }

/-- The callback of lines 136-138. -/
def processorTimer (s : AppState) : AppState :=
  { s with pipelineStatus := processorAdvance s.pipelineStatus }

/-- The callback of lines 141-148. -/
def reporterTimer (s : AppState) : AppState :=
  { s with pipelineStatus := reporterAdvance s.pipelineStatus }

/-! ## Event traces -/

/-- What can happen to the component: the location select changes, the
trigger button is clicked, the executor call settles, a delayed callback
runs. -/
inductive Event
  | selectLocation (value : String)
  | click (rw rb : ℚ)
  | resolve (data : ResponseData) (now : String)
  | reject (message : String) (now : String)
  | validatorTimer (rv : ℚ)
  | processorTimer
  | reporterTimer
deriving DecidableEq, Repr

/-- One event applied to the state.  The button is `disabled={loading}`, so
a click while `loading` does nothing; a settlement needs a suspended call. -/
def step (ev : Event) (s : AppState) : AppState :=
  match ev with
  | Event.selectLocation v => { s with location := v }
  | Event.click rw rb => if s.loading then s else triggerPipelineStart rw rb s
  | Event.resolve data now =>
    match s.inflight with
    | some c => triggerPipelineResolved c data now s
    | none => s
  | Event.reject message now =>
    match s.inflight with
    | some c => triggerPipelineRejected c message now s
    | none => s
  | Event.validatorTimer rv => validatorTimer rv s
  | Event.processorTimer => processorTimer s
  | Event.reporterTimer => reporterTimer s

/-- Events that neither start nor settle a run: a change of the location
select and the delayed callbacks. -/
def Event.isPassive : Event → Bool
  | Event.selectLocation _ => true
  | Event.validatorTimer _ => true
  | Event.processorTimer => true
  | Event.reporterTimer => true
  | _ => false

/-- A sequence of events applied in order. -/
def exec : List Event → AppState → AppState
  | [], s => s
  | ev :: evs, s => exec evs (step ev s)

/-- The history entry that an event appends in state `s`, if it appends
one. -/
def entryOf (ev : Event) (s : AppState) : Option HistoryEntry :=
  match ev, s.inflight with
  | Event.resolve data now, some c => some (successEntry c data now)
  | Event.reject message now, some c => some (errorEntry c message now)
  | _, _ => none

/-- The entries appended along a trace, oldest first: one per run that
settled. -/
def runEntries : List Event → AppState → List HistoryEntry
  | [], _ => []
  | ev :: evs, s => (entryOf ev s).toList ++ runEntries evs (step ev s)

/-! ## Audit projection -/

/-- One element of `auditLogs` (the object literal of lines 68-76). -/
structure AuditRow where
  id : Nat
  execution_id : String
  version : String
  stage : String
  status : String
  timestamp : String
  location : String
deriving DecidableEq, Repr

/-- A non-negative integer as a template literal prints it: its decimal
digits, most significant first. -/
def decimal (n : Nat) : String :=
  if n = 0 then "0" else String.mk ((Nat.digits 10 n).reverse.map Nat.digitChar)

/-- The template literal of line 71 for a value `t` of `Date.now()`. -/
def versionLabel (t : Nat) : String :=
  "v2025-10-25_" ++ decimal t

/-- The callback of `history.map((h, idx) => ...)` (lines 68-76); `t` is
what `Date.now()` returns in this call of the callback. -/
def mockLog (h : HistoryEntry) (idx : Nat) (t : Nat) : AuditRow :=
  { id := idx + 1
    execution_id := h.executionId
    version := versionLabel t
    stage := "reporting"
    status := h.status
    timestamp := h.timestamp
    location := h.location }

/-- The rows `history.map` builds for the elements from index `idx` on;
`clock i` is the value of `Date.now()` while row `i` is built. -/
def mockLogsFrom (clock : Nat → Nat) : Nat → List HistoryEntry → List AuditRow
  | _, [] => []
  | idx, h :: hs => mockLog h idx (clock idx) :: mockLogsFrom clock (idx + 1) hs

/-- The array `fetchAuditLogs` stores in `auditLogs` (lines 63-77). -/
def fetchAuditLogs (history : List HistoryEntry) (clock : Nat → Nat) :
    List AuditRow :=
  mockLogsFrom clock 0 history

/-! ## Properties of stage statuses -/

/-- Position of a stage in `stages`. -/
def Stage.index : Stage → Nat
  | Stage.collector => 0
  | Stage.validator => 1
  | Stage.processor => 2
  | Stage.reporter => 3

/-- A status that ends a stage: "success" or "error". -/
def isFinished (v : String) : Bool :=
  v == "success" || v == "error"

/-- A status of a stage that has not ended: "pending" or "loading". -/
def isOpen (v : String) : Bool :=
  v == "pending" || v == "loading"

/-- A stage is "loading" only if every earlier stage is "success". -/
def loadingOnlyAfterSuccess (p : PipelineStatus) : Bool :=
  stages.all (fun t =>
    p.get t != "loading"
      || stages.all (fun u => !(decide (u.index < t.index)) || p.get u == "success"))

/-- At most one stage is "loading". -/
def atMostOneLoading (p : PipelineStatus) : Bool :=
  decide ((stages.filter (fun t => p.get t == "loading")).length ≤ 1)

/-- Stage `t` is finished in `p` and open again in `q`. -/
def movesBackwardAt (p q : PipelineStatus) (t : Stage) : Bool :=
  isFinished (p.get t) && isOpen (q.get t)

/-- No stage that is finished in `p` is open again in `q`. -/
def noBackward (p q : PipelineStatus) : Bool :=
  stages.all (fun t => !(movesBackwardAt p q t))

/-- The four status updates that `triggerPipeline` schedules. -/
inductive Advance
  | collector
  | validator
  | processor
  | reporter
deriving DecidableEq, Repr

/-- The status update of an advance (lines 123, 132, 137, 142-147). -/
def Advance.apply : Advance → PipelineStatus → PipelineStatus
  | Advance.collector => collectorAdvance
  | Advance.validator => validatorAdvance
  | Advance.processor => processorAdvance
  | Advance.reporter => reporterAdvance

/-- The stage an advance sets to "loading", if it sets one. -/
def Advance.next : Advance → Option Stage
  | Advance.collector => some Stage.validator
  | Advance.validator => some Stage.processor
  | Advance.processor => some Stage.reporter
  | Advance.reporter => none

/-- The statuses after each update of a sequence, the start included. -/
def statusTrace : List Advance → PipelineStatus → List PipelineStatus
  | [], p => [p]
  | a :: as, p => p :: statusTrace as (a.apply p)

/-! ## Pending timers -/

/-- The three delayed callbacks of lines 126-148. -/
inductive TimerKind
  | validator
  | processor
  | reporter
deriving DecidableEq, Repr

/-- The delay passed to `setTimeout` for each callback. -/
def TimerKind.delay : TimerKind → Nat
  | TimerKind.validator => 1500
  | TimerKind.processor => 3000
  | TimerKind.reporter => 4500

/-- Running a callback; `rv` is the `Math.random()` draw the validator
callback makes. -/
def TimerKind.run (rv : ℚ) : TimerKind → AppState → AppState
  | TimerKind.validator, s => validatorTimer rv s
  | TimerKind.processor, s => processorTimer s
  | TimerKind.reporter, s => reporterTimer s

/-- The status update a callback performs. -/
def TimerKind.advance : TimerKind → PipelineStatus → PipelineStatus
  | TimerKind.validator => validatorAdvance
  | TimerKind.processor => processorAdvance
  | TimerKind.reporter => reporterAdvance

/-- The component together with the callbacks handed to `setTimeout` that
have not run yet, oldest first.  No `clearTimeout` occurs in the source, so
a callback leaves the list only by running. -/
structure Scheduled where
  app : AppState
  timers : List TimerKind
deriving DecidableEq, Repr

/-- The component after mounting: no timer is pending. -/
def initialScheduled : Scheduled :=
  { app := initialState, timers := [] }

/-- Whether the pending callback at position `i` may run next: a timer
callback runs only after every callback that was set earlier with an equal
or smaller delay. -/
def canFire (timers : List TimerKind) (i : Nat) : Bool :=
  match timers[i]? with
  | none => false
  | some k => (timers.take i).all (fun j => decide (k.delay < j.delay))

/-- What can happen to the component with its timers: as `Event`, with the
callback to run chosen among the pending ones by its position. -/
inductive Action
  | selectLocation (value : String)
  | click (rw rb : ℚ)
  | resolve (data : ResponseData) (now : String)
  | reject (message : String) (now : String)
  | fire (i : Nat) (rv : ℚ)
deriving DecidableEq, Repr

/-- One action.  A successful response sets the three timers (lines 126,
136, 141); `fire` runs the chosen callback when the timer rules allow it and
does nothing otherwise. -/
def act (a : Action) (σ : Scheduled) : Scheduled :=
  match a with
  | Action.selectLocation v => { σ with app := step (Event.selectLocation v) σ.app }
  | Action.click rw rb => { σ with app := step (Event.click rw rb) σ.app }
  | Action.resolve data now =>
    match σ.app.inflight with
    | some _ =>
      { app := step (Event.resolve data now) σ.app
        timers := σ.timers
          ++ [TimerKind.validator, TimerKind.processor, TimerKind.reporter] }
    | none => σ
  | Action.reject message now =>
    { σ with app := step (Event.reject message now) σ.app }
  | Action.fire i rv =>
    match σ.timers[i]? with
    | some k =>
      if canFire σ.timers i then { app := k.run rv σ.app, timers := σ.timers.eraseIdx i }
      else σ
    | none => σ

/-- Actions that neither start nor settle a run. -/
def Action.isBackground : Action → Bool
  | Action.selectLocation _ => true
  | Action.fire _ _ => true
  | _ => false

/-- A sequence of actions applied in order. -/
def perform : List Action → Scheduled → Scheduled
  | [], σ => σ
  | a :: as, σ => perform as (act a σ)

/-- Either no timer is pending and all four stages are "success", or the
timer set last is a reporter callback. -/
def ReporterLast (σ : Scheduled) : Prop :=
  (σ.timers = [] ∧ σ.app.pipelineStatus = reporterAdvance σ.app.pipelineStatus)
    ∨ ∃ init, σ.timers = init ++ [TimerKind.reporter]

/-! ## Location select -/

/-- One element of the array `locations`. -/
structure LocationOption where
  value : String
  label : String
deriving DecidableEq, Repr

/-- The array `locations` (lines 54-60). -/
def locations : List LocationOption :=
  [{ value := "London,uk", label := "London, UK" },
   { value := "New York,us", label := "New York, USA" },
   { value := "Tokyo,jp", label := "Tokyo, Japan" },
   { value := "Paris,fr", label := "Paris, France" },
   { value := "Sydney,au", label := "Sydney, Australia" }]

/-- All pieces of `location.split(',')` as strings. -/
def splitPieces (location : String) : List String :=
  String.mk (splitComma location.data).1
    :: (splitComma location.data).2.map String.mk

/-- No timer is pending and the collector is not "success". -/
def NoResponseYet (σ : Scheduled) : Prop :=
  σ.timers = [] ∧ σ.app.pipelineStatus.collector ≠ "success"

/-! ## Sample data -/

/-- A success entry whose `retries` is `n`; entries for different `n`
differ. -/
def sampleEntry (n : Nat) : HistoryEntry :=
  { location := "London"
    timestamp := "t"
    status := "success"
    executionId := "x"
    version := some "v"
    retries := some (Int.ofNat n)
    validationWarnings := some 0
    error := none }

/-- The trace of `n` runs in a row, a rejected run after every successful
one. -/
def sampleRuns : Nat → List Event
  | 0 => []
  | n + 1 =>
    Event.click 0 0
      :: (if n % 2 = 0 then Event.resolve ⟨"x", "v"⟩ "t"
          else Event.reject "network error" "t")
      :: sampleRuns n

/-! ## Lemmas on the history -/

theorem appendHistory_length (e : HistoryEntry) (L : List HistoryEntry) :
    (appendHistory e L).length = min (L.length + 1) 20 := by
  simp only [appendHistory, List.length_take, List.length_cons]
  omega

theorem appendHistory_length_le (e : HistoryEntry) (L : List HistoryEntry) :
    (appendHistory e L).length ≤ 20 := by
  rw [appendHistory_length]; exact min_le_right _ _

theorem mem_appendHistory {e x : HistoryEntry} {L : List HistoryEntry}
    (h : x ∈ appendHistory e L) : x = e ∨ x ∈ L := by
  have := List.mem_of_mem_take h
  simpa using this

/-- An invariant of every step is an invariant of every trace. -/
theorem exec_invariant (P : AppState → Prop)
    (hstep : ∀ ev s, P s → P (step ev s)) :
    ∀ (evs : List Event) (s : AppState), P s → P (exec evs s) := by
  intro evs
  induction evs with
  | nil => intro s hs; exact hs
  | cons ev evs ih => intro s hs; exact ih _ (hstep ev s hs)

theorem step_history (ev : Event) (s : AppState) :
    (step ev s).history =
      match entryOf ev s with
      | some e => appendHistory e s.history
      | none => s.history := by
  cases ev <;> simp only [step, entryOf]
  · split <;> rfl
  · cases h : s.inflight <;> rfl
  · cases h : s.inflight <;> rfl
  · rfl
  · rfl
  · rfl

theorem step_history_length_le (ev : Event) (s : AppState)
    (h : s.history.length ≤ 20) : (step ev s).history.length ≤ 20 := by
  rw [step_history]
  cases entryOf ev s with
  | none => exact h
  | some e => exact appendHistory_length_le e _

theorem exec_history_length_le (evs : List Event) (s : AppState)
    (h : s.history.length ≤ 20) : (exec evs s).history.length ≤ 20 :=
  exec_invariant (fun s => s.history.length ≤ 20) step_history_length_le evs s h

theorem take_append_take {α : Type} (A B : List α) (n : Nat) :
    (A ++ B.take n).take n = (A ++ B).take n := by
  rw [List.take_append_eq_append_take, List.take_append_eq_append_take,
    List.take_take, min_eq_left (Nat.sub_le _ _)]


theorem exec_history (evs : List Event) (s : AppState)
    (h : s.history.length ≤ 20) :
    (exec evs s).history = ((runEntries evs s).reverse ++ s.history).take 20 := by
  induction evs generalizing s with
  | nil => simp [exec, runEntries, List.take_of_length_le h]
  | cons ev evs ih =>
    rw [exec, ih _ (step_history_length_le ev s h), runEntries, step_history]
    cases entryOf ev s with
    | none => simp
    | some e =>
      simp only [Option.toList, appendHistory, List.reverse_append, List.reverse_cons,
        List.reverse_nil, List.nil_append, List.append_assoc, List.singleton_append]
      rw [take_append_take]

/-- Appending the entries of `es` one after the other, oldest first. -/
theorem foldl_appendHistory (es L : List HistoryEntry) (h : L.length ≤ 20) :
    es.foldl (fun acc e => appendHistory e acc) L = (es.reverse ++ L).take 20 := by
  induction es generalizing L with
  | nil => simp [List.take_of_length_le h]
  | cons e es ih =>
    rw [List.foldl_cons, ih _ (appendHistory_length_le e L)]
    simp only [appendHistory, List.reverse_cons, List.append_assoc, List.singleton_append]
    rw [take_append_take]

/-- Claim C1, ledger bound: the history update of the success path and the
one of the error path both turn a history of length `n` into one of length
`min (n + 1) 20` (for every `n`, so in particular for `n ≤ 20`), and the
history after any trace of events from the initial state has at most 20
entries. -/
theorem ledger_bound (s : AppState) (c : PendingCall) (data : ResponseData)
    (message now : String) (evs : List Event) :
    (triggerPipelineResolved c data now s).history.length
        = min (s.history.length + 1) 20
      ∧ (triggerPipelineRejected c message now s).history.length
        = min (s.history.length + 1) 20
      ∧ (exec evs initialState).history.length ≤ 20 :=
  ⟨appendHistory_length _ _, appendHistory_length _ _,
    exec_history_length_le evs initialState (by decide)⟩

/-- Claim C2: for a history `L` of at most 20 entries, the appended history
has the new entry at index 0 and `L[i]` itself at index `i + 1` for every
`i < min n 19`; an entry of `L` that is missing from the result is
`L[19]`. -/
theorem append_head_and_frame (L : List HistoryEntry) (e : HistoryEntry)
    (hL : L.length ≤ 20) :
    (appendHistory e L)[0]? = some e
      ∧ (∀ i, i < min L.length 19 → (appendHistory e L)[i + 1]? = L[i]?)
      ∧ (∀ x ∈ L, x ∉ appendHistory e L → L[19]? = some x) := by
  refine ⟨by simp [appendHistory], ?_, ?_⟩
  · intro i hi
    obtain ⟨hn, h19⟩ := lt_min_iff.mp hi
    have : i + 1 < 20 := by omega
    simp only [appendHistory, List.getElem?_take, List.getElem?_cons_succ]
    rw [if_pos this]
  · intro x hx hnot
    obtain ⟨i, hi, rfl⟩ := List.getElem_of_mem hx
    by_cases h19 : i = 19
    · subst h19; simp [hi]
    · exfalso
      apply hnot
      have hi1 : i + 1 < 20 := by omega
      have : (appendHistory e L)[i + 1]? = some L[i] := by
        simp only [appendHistory, List.getElem?_take, List.getElem?_cons_succ]
        rw [if_pos (by omega), List.getElem?_eq_getElem hi]
      exact List.getElem?_mem this


/-- Claim C3: when more than 20 runs have settled along a trace from the
initial state, the history has exactly 20 entries and its entry `i` is the
entry of run `N - i` (index `N - 1 - i` of the entries in run order).
Appending 25 pairwise distinct entries to the empty history leaves 20
entries with the 25th at the head and none of the first five. -/
theorem ledger_keeps_latest_twenty (evs : List Event) (es : List HistoryEntry)
    (hN : 20 < (runEntries evs initialState).length)
    (hlen : es.length = 25) (hnodup : es.Nodup) :
    ((exec evs initialState).history.length = 20
      ∧ ∀ i, i < 20 → (exec evs initialState).history[i]?
          = (runEntries evs initialState)[(runEntries evs initialState).length - 1 - i]?)
    ∧ ((es.foldl (fun acc e => appendHistory e acc) []).length = 20
      ∧ (es.foldl (fun acc e => appendHistory e acc) [])[0]? = es[24]?
      ∧ ∀ i, i < 5 → ∀ x, es[i]? = some x →
          x ∉ es.foldl (fun acc e => appendHistory e acc) []) := by
  constructor
  · rw [exec_history evs initialState (by decide)]
    have h0 : initialState.history = [] := rfl
    rw [h0, List.append_nil]
    refine ⟨by simp only [List.length_take, List.length_reverse]; omega, ?_⟩
    intro i hi
    rw [List.getElem?_take, if_pos hi, List.getElem?_reverse (by omega)]
  · rw [foldl_appendHistory es [] (by decide), List.append_nil]
    refine ⟨by simp only [List.length_take, List.length_reverse]; omega, ?_, ?_⟩
    · rw [List.getElem?_take, if_pos (by decide), List.getElem?_reverse (by omega), hlen]
    · intro i hi x hx hmem
      have hmem2 : x ∈ es.drop 5 := by
        have h1 : es.reverse.take 20 = (es.drop 5).reverse := by
          rw [List.reverse_drop, hlen]
        rw [h1] at hmem
        exact List.mem_reverse.mp hmem
      have hmem1 : x ∈ es.take 5 := by
        have : (es.take 5)[i]? = some x := by
          rw [List.getElem?_take, if_pos hi, hx]
        exact List.getElem?_mem this
      have hd : (es.take 5 ++ es.drop 5).Nodup := by
        rw [List.take_append_drop]; exact hnodup
      exact (List.disjoint_of_nodup_append hd) hmem1 hmem2

theorem count_success_error (L : List HistoryEntry)
    (h : ∀ x ∈ L, x.status = "success" ∨ x.status = "error") :
    (calculateStatistics L).total
      = (calculateStatistics L).successful + (calculateStatistics L).failed := by
  induction L with
  | nil => rfl
  | cons x L ih =>
    have ih2 := ih (fun y hy => h y (List.mem_cons_of_mem _ hy))
    simp only [calculateStatistics] at ih2 ⊢
    rcases h x (List.mem_cons_self _ _) with hx | hx
    · simp [List.filter_cons, hx, ih2]; omega
    · simp [List.filter_cons, hx, ih2]; omega

theorem step_statuses (ev : Event) (s : AppState)
    (h : ∀ x ∈ s.history, x.status = "success" ∨ x.status = "error") :
    ∀ x ∈ (step ev s).history, x.status = "success" ∨ x.status = "error" := by
  rw [step_history]
  cases hev : entryOf ev s with
  | none => exact h
  | some e =>
    intro x hx
    rcases mem_appendHistory hx with rfl | hx
    · cases ev <;> cases hc : s.inflight <;> simp [entryOf, hc] at hev
      · subst hev; left; rfl
      · subst hev; right; rfl
    · exact h x hx

/-- Claim C4: for the history after any trace of events from the initial
state, the statistics satisfy `total = successful + failed`. -/
theorem stats_total_eq_sum (evs : List Event) :
    (calculateStatistics (exec evs initialState).history).total
      = (calculateStatistics (exec evs initialState).history).successful
        + (calculateStatistics (exec evs initialState).history).failed :=
  count_success_error _
    (exec_invariant (fun s => ∀ x ∈ s.history, x.status = "success" ∨ x.status = "error")
      step_statuses evs initialState (by intro x hx; cases hx))


theorem exec_append (a b : List Event) (s : AppState) :
    exec (a ++ b) s = exec b (exec a s) := by
  induction a generalizing s with
  | nil => rfl
  | cons ev a ih => exact ih _

theorem splitComma_fst (cs : List Char) :
    (splitComma cs).1 = cs.takeWhile (fun c => decide (c ≠ ',')) := by
  induction cs with
  | nil => rfl
  | cons c cs ih =>
    by_cases hc : c = ','
    · simp [splitComma, hc]
    · simp [splitComma, hc, ih, List.takeWhile_cons]

theorem splitLoc_eq_beforeComma (location : String) :
    splitLoc location = beforeComma location := by
  simp only [splitLoc, beforeComma, splitComma_fst]

/-- Events that neither start nor settle a run leave the history, the
suspended call, the retry counts and the loading flag as they are. -/
theorem exec_passive (mid : List Event) (s : AppState)
    (hmid : ∀ ev ∈ mid, ev.isPassive = true) :
    (exec mid s).history = s.history ∧ (exec mid s).inflight = s.inflight
      ∧ (exec mid s).retryAttempts = s.retryAttempts
      ∧ (exec mid s).loading = s.loading := by
  induction mid generalizing s with
  | nil => exact ⟨rfl, rfl, rfl, rfl⟩
  | cons ev mid ih =>
    have h1 := ih (step ev s) (fun e he => hmid e (List.mem_cons_of_mem _ he))
    have h2 : ev.isPassive = true := hmid ev (List.mem_cons_self _ _)
    rw [exec]
    cases ev <;> simp [Event.isPassive] at h2 <;> exact h1

theorem step_click (rw rb : ℚ) (s : AppState) (hload : s.loading = false) :
    step (Event.click rw rb) s = triggerPipelineStart rw rb s := by
  simp [step, hload]

theorem step_reject_history (message now : String) (s : AppState) (c : PendingCall)
    (h : s.inflight = some c) :
    (step (Event.reject message now) s).history
      = appendHistory (errorEntry c message now) s.history := by
  simp [step, h, triggerPipelineRejected]

theorem step_resolve_history (data : ResponseData) (now : String) (s : AppState)
    (c : PendingCall) (h : s.inflight = some c) :
    (step (Event.resolve data now) s).history
      = appendHistory (successEntry c data now) s.history := by
  simp [step, h, triggerPipelineResolved]

/-- Claim C5: a run that starts in any state with the button enabled and
whose executor call is rejected with `message` (callbacks of earlier runs and
changes of the select may happen during the call) leaves the history equal to
one new error entry, with `executionId` "N/A", `error` the message and
`location` the part of the selected value before the comma, followed by the
first 19 entries of the prior history. -/
theorem rejected_run_appends_one_error_entry (s : AppState) (rw rb : ℚ)
    (mid : List Event) (message now : String)
    (hload : s.loading = false) (hmid : ∀ ev ∈ mid, ev.isPassive = true) :
    (exec (Event.click rw rb :: mid ++ [Event.reject message now]) s).history
      = { location := beforeComma s.location
          timestamp := now
          status := "error"
          executionId := "N/A"
          version := none
          retries := none
          validationWarnings := none
          error := some message } :: s.history.take 19 := by
  obtain ⟨hh, hi, -, -⟩ := exec_passive mid (triggerPipelineStart rw rb s) hmid
  rw [List.cons_append, exec, exec_append, step_click rw rb s hload, exec, exec,
    step_reject_history message now _ _ hi, hh]
  simp only [triggerPipelineStart, resetRun, appendHistory, errorEntry,
    splitLoc_eq_beforeComma, List.take_succ_cons]


theorem failedStage_of_loading (p : PipelineStatus) (h : ∃ t, p.get t = "loading") :
    p.get (failedStage p) = "loading"
      ∧ ∃ pre post, stages = pre ++ failedStage p :: post
          ∧ ∀ t ∈ pre, p.get t ≠ "loading" := by
  obtain ⟨t, ht⟩ := h
  cases hf : stages.find? (fun s => p.get s == "loading") with
  | none =>
    exfalso
    rw [List.find?_eq_none] at hf
    have ht2 : t ∈ stages := by cases t <;> decide
    exact hf t ht2 (by simp [ht])
  | some b =>
    have hb : failedStage p = b := by simp [failedStage, hf]
    rw [List.find?_eq_some] at hf
    obtain ⟨h1, pre, post, h2, h3⟩ := hf
    rw [hb]
    refine ⟨by simpa using h1, pre, post, h2, ?_⟩
    intro u hu
    simpa using h3 u hu

theorem failedStage_of_none_loading (p : PipelineStatus)
    (h : ∀ t, p.get t ≠ "loading") : failedStage p = Stage.collector := by
  have hf : stages.find? (fun s => p.get s == "loading") = none := by
    rw [List.find?_eq_none]
    intro t _
    simpa using h t
  simp [failedStage, hf]

theorem get_set_same (p : PipelineStatus) (t : Stage) (v : String) :
    (p.set t v).get t = v := by
  cases t <;> rfl

theorem get_set_other (p : PipelineStatus) (t u : Stage) (v : String) (h : u ≠ t) :
    (p.set t v).get u = p.get u := by
  cases t <;> cases u <;> first | rfl | exact absurd rfl h

/-- Claim C6, failure marking: `markFailed` writes "error" to the stage
`failedStage` and leaves the other three stages as they were; `failedStage`
is the first stage of `stages` whose status is "loading" when there is one,
and the collector otherwise.  On the status set at the start of a run, and
in a run that is rejected right away, the result is collector "error" with
the other three stages "pending".  The written stage really changes unless
it was "error" already. -/
theorem markFailed_sets_one_stage (p : PipelineStatus) (s : AppState) (rw rb : ℚ)
    (message now : String) (hload : s.loading = false) :
    (markFailed p).get (failedStage p) = "error"
      ∧ (∀ t, t ≠ failedStage p → (markFailed p).get t = p.get t)
      ∧ ((∃ t, p.get t = "loading") →
          p.get (failedStage p) = "loading"
            ∧ ∃ pre post, stages = pre ++ failedStage p :: post
                ∧ ∀ t ∈ pre, p.get t ≠ "loading")
      ∧ ((∀ t, p.get t ≠ "loading") → failedStage p = Stage.collector)
      ∧ markFailed resetStatus
          = { collector := "error", validator := "pending",
              processor := "pending", reporter := "pending" }
      ∧ (exec [Event.click rw rb, Event.reject message now] s).pipelineStatus
          = { collector := "error", validator := "pending",
              processor := "pending", reporter := "pending" }
      ∧ (p.get (failedStage p) ≠ "error" →
          (markFailed p).get (failedStage p) ≠ p.get (failedStage p)) := by
  refine ⟨get_set_same _ _ _, fun t ht => get_set_other _ _ _ _ ht,
    failedStage_of_loading p, failedStage_of_none_loading p, by decide, ?_, ?_⟩
  · rw [exec, step_click rw rb s hload]
    simp only [exec, step, triggerPipelineStart, triggerPipelineRejected, resetRun]
    decide
  · intro h heq
    exact h (heq ▸ get_set_same _ _ _)

/-- Claim C7, success timeline: in a run that starts with the button
enabled and whose call succeeds, the statuses after the start and after each
of the four advances in order are (loading, pending, pending, pending),
(success, loading, pending, pending), (success, success, loading, pending),
(success, success, success, loading) and four times success. -/
theorem success_timeline (s : AppState) (rw rb rv : ℚ) (data : ResponseData)
    (now : String) (hload : s.loading = false) :
    (exec [Event.click rw rb] s).pipelineStatus
        = { collector := "loading", validator := "pending",
            processor := "pending", reporter := "pending" }
      ∧ (exec [Event.click rw rb, Event.resolve data now] s).pipelineStatus
        = { collector := "success", validator := "loading",
            processor := "pending", reporter := "pending" }
      ∧ (exec [Event.click rw rb, Event.resolve data now,
            Event.validatorTimer rv] s).pipelineStatus
        = { collector := "success", validator := "success",
            processor := "loading", reporter := "pending" }
      ∧ (exec [Event.click rw rb, Event.resolve data now,
            Event.validatorTimer rv, Event.processorTimer] s).pipelineStatus
        = { collector := "success", validator := "success",
            processor := "success", reporter := "loading" }
      ∧ (exec [Event.click rw rb, Event.resolve data now,
            Event.validatorTimer rv, Event.processorTimer,
            Event.reporterTimer] s).pipelineStatus
        = { collector := "success", validator := "success",
            processor := "success", reporter := "success" } := by
  simp only [exec, step_click rw rb s hload]
  simp only [step, triggerPipelineStart, triggerPipelineResolved, resetRun, validatorTimer,
    processorTimer, reporterTimer, resetStatus, collectorAdvance, validatorAdvance,
    processorAdvance, reporterAdvance, and_self]

/-- Claim C8: a run that starts in any state with the button enabled and
whose executor call succeeds with `data` leaves the history equal to one new
success entry followed by the first 19 entries of the prior history; the
entry carries the executor's execution id and version, the sum of the two
retry counts sampled for this run (the ones shown in `retryAttempts`), and
the part of the selected location before the comma. -/
theorem resolved_run_appends_one_success_entry (s : AppState) (rw rb : ℚ)
    (mid : List Event) (data : ResponseData) (now : String)
    (hload : s.loading = false) (hmid : ∀ ev ∈ mid, ev.isPassive = true) :
    (exec (Event.click rw rb :: mid) s).retryAttempts
        = { weather := retrySample rw, bitcoin := retrySample rb }
      ∧ (exec (Event.click rw rb :: mid ++ [Event.resolve data now]) s).history
        = { location := beforeComma s.location
            timestamp := now
            status := "success"
            executionId := data.execution_id
            version := some data.version
            retries := some (retrySample rw + retrySample rb)
            validationWarnings := some s.validationErrors.length
            error := none } :: s.history.take 19 := by
  obtain ⟨hh, hi, hr, -⟩ := exec_passive mid (triggerPipelineStart rw rb s) hmid
  constructor
  · rw [exec, step_click rw rb s hload, hr]; rfl
  · rw [List.cons_append, exec, exec_append, step_click rw rb s hload, exec, exec,
      step_resolve_history data now _ _ hi, hh]
    simp only [triggerPipelineStart, resetRun, appendHistory, successEntry,
      splitLoc_eq_beforeComma, List.take_succ_cons]


theorem step_resolve_status (data : ResponseData) (now : String) (s : AppState)
    (c : PendingCall) (h : s.inflight = some c) :
    (step (Event.resolve data now) s).pipelineStatus
      = collectorAdvance s.pipelineStatus := by
  simp [step, h, triggerPipelineResolved]

/-- Claim C9 as stated fails: in a run from the initial state the success
entry is in the history right after the executor call resolves, while the
validator is still "loading" and the reporter is not "success". -/
theorem success_entry_precedes_terminal :
    (exec [Event.click 0 0] initialState).history = []
      ∧ (exec [Event.click 0 0, Event.resolve ⟨"exec-1", "v1"⟩ "t1"]
          initialState).history.map (fun h => h.status) = ["success"]
      ∧ (exec [Event.click 0 0, Event.resolve ⟨"exec-1", "v1"⟩ "t1"]
          initialState).pipelineStatus
        = { collector := "success", validator := "loading",
            processor := "pending", reporter := "pending" }
      ∧ (exec [Event.click 0 0, Event.resolve ⟨"exec-1", "v1"⟩ "t1"]
          initialState).pipelineStatus.reporter ≠ "success" := by
  decide

/-- Claim C9 amended: the success entry is appended in the step that follows
the successful response, together with the first advance.  The history is
untouched until then; at the moment of the append the collector is "success"
and the validator is "loading" (processor and reporter are "pending" when
nothing else happened during the call); the three delayed advances leave the
history as it is and end with all four stages "success". -/
theorem success_entry_appended_with_first_advance (s : AppState) (rw rb rv : ℚ)
    (mid : List Event) (data : ResponseData) (now : String)
    (hload : s.loading = false) (hmid : ∀ ev ∈ mid, ev.isPassive = true) :
    (exec (Event.click rw rb :: mid) s).history = s.history
      ∧ (exec (Event.click rw rb :: mid ++ [Event.resolve data now]) s).history
        = appendHistory
            (successEntry
              { loc := splitLoc s.location
                country := splitCountry s.location
                retryWeather := retrySample rw
                retryBitcoin := retrySample rb
                validationErrors := s.validationErrors } data now) s.history
      ∧ (exec (Event.click rw rb :: mid ++ [Event.resolve data now])
          s).pipelineStatus.collector = "success"
      ∧ (exec (Event.click rw rb :: mid ++ [Event.resolve data now])
          s).pipelineStatus.validator = "loading"
      ∧ (exec [Event.click rw rb, Event.resolve data now] s).pipelineStatus
        = { collector := "success", validator := "loading",
            processor := "pending", reporter := "pending" }
      ∧ (exec ((Event.click rw rb :: mid ++ [Event.resolve data now])
            ++ [Event.validatorTimer rv, Event.processorTimer, Event.reporterTimer])
          s).history
        = (exec (Event.click rw rb :: mid ++ [Event.resolve data now]) s).history
      ∧ (exec ((Event.click rw rb :: mid ++ [Event.resolve data now])
            ++ [Event.validatorTimer rv, Event.processorTimer, Event.reporterTimer])
          s).pipelineStatus
        = { collector := "success", validator := "success",
            processor := "success", reporter := "success" } := by
  obtain ⟨hh, hi, -, -⟩ := exec_passive mid (triggerPipelineStart rw rb s) hmid
  have hst : (exec (Event.click rw rb :: mid ++ [Event.resolve data now]) s).pipelineStatus
      = collectorAdvance (exec mid (triggerPipelineStart rw rb s)).pipelineStatus := by
    rw [List.cons_append, exec, exec_append, step_click rw rb s hload, exec, exec,
      step_resolve_status data now _ _ hi]
  refine ⟨?_, ?_, ?_, ?_, ?_, ?_, ?_⟩
  · rw [exec, step_click rw rb s hload, hh]; rfl
  · rw [List.cons_append, exec, exec_append, step_click rw rb s hload, exec, exec,
      step_resolve_history data now _ _ hi, hh]
    rfl
  · rw [hst]; rfl
  · rw [hst]; rfl
  · simp only [exec, step_click rw rb s hload]
    simp only [step, triggerPipelineStart, triggerPipelineResolved, resetRun, resetStatus,
      collectorAdvance]
  · rw [exec_append]
    refine (exec_passive _ _ ?_).1
    intro ev hev
    simp only [List.mem_cons, List.mem_singleton, List.not_mem_nil, or_false] at hev
    rcases hev with rfl | rfl | rfl <;> rfl
  · rw [exec_append]
    rfl

/-- Claim C10 at the failing input: the first run raises the two warnings,
the second run raises none and ends with an empty warning set, yet the entry
of the second run stores 2 and the entry of the first run stores 0. -/
theorem stored_warning_count_is_stale :
    (exec [Event.click 0 0, Event.resolve ⟨"exec-1", "v1"⟩ "t1",
        Event.validatorTimer (3 / 4), Event.processorTimer, Event.reporterTimer]
      initialState).validationErrors
        = ["Temperature out of normal range", "Bitcoin rate fluctuation detected"]
      ∧ hasValidationIssue 0 = false
      ∧ (exec [Event.click 0 0, Event.resolve ⟨"exec-2", "v1"⟩ "t2",
            Event.validatorTimer 0, Event.processorTimer, Event.reporterTimer]
          (exec [Event.click 0 0, Event.resolve ⟨"exec-1", "v1"⟩ "t1",
              Event.validatorTimer (3 / 4), Event.processorTimer, Event.reporterTimer]
            initialState)).validationErrors = []
      ∧ (exec [Event.click 0 0, Event.resolve ⟨"exec-2", "v1"⟩ "t2",
            Event.validatorTimer 0, Event.processorTimer, Event.reporterTimer]
          (exec [Event.click 0 0, Event.resolve ⟨"exec-1", "v1"⟩ "t1",
              Event.validatorTimer (3 / 4), Event.processorTimer, Event.reporterTimer]
            initialState)).history.map (fun h => h.validationWarnings)
        = [some 2, some 0] := by
  have h1 : hasValidationIssue (3 / 4) = true := by
    norm_num [hasValidationIssue, validationThreshold]
  have h0 : hasValidationIssue 0 = false := by
    norm_num [hasValidationIssue, validationThreshold]
  simp [exec, step, initialState, triggerPipelineStart, triggerPipelineResolved, resetRun,
    validatorTimer, processorTimer, reporterTimer, appendHistory, successEntry, h1, h0,
    validationWarningStrings]


theorem append_head_and_frame_witness :
    [sampleEntry 1, sampleEntry 2].length ≤ 20
      ∧ (appendHistory (sampleEntry 0) [sampleEntry 1, sampleEntry 2])[0]?
          = some (sampleEntry 0)
      ∧ (∀ i, i < min [sampleEntry 1, sampleEntry 2].length 19 →
          (appendHistory (sampleEntry 0) [sampleEntry 1, sampleEntry 2])[i + 1]?
            = [sampleEntry 1, sampleEntry 2][i]?)
      ∧ (∀ x ∈ [sampleEntry 1, sampleEntry 2],
          x ∉ appendHistory (sampleEntry 0) [sampleEntry 1, sampleEntry 2] →
            [sampleEntry 1, sampleEntry 2][19]? = some x) :=
  ⟨by decide, append_head_and_frame [sampleEntry 1, sampleEntry 2] (sampleEntry 0) (by decide)⟩

theorem ledger_keeps_latest_twenty_witness :
    20 < (runEntries (sampleRuns 21) initialState).length
      ∧ ((List.range 25).map sampleEntry).length = 25
      ∧ ((List.range 25).map sampleEntry).Nodup
      ∧ (exec (sampleRuns 21) initialState).history.length = 20
      ∧ (((List.range 25).map sampleEntry).foldl
          (fun acc e => appendHistory e acc) [])[0]? = some (sampleEntry 24) :=
  ⟨by decide, by decide, by decide,
    (ledger_keeps_latest_twenty (sampleRuns 21) ((List.range 25).map sampleEntry)
      (by decide) (by decide) (by decide)).1.1,
    (ledger_keeps_latest_twenty (sampleRuns 21) ((List.range 25).map sampleEntry)
      (by decide) (by decide) (by decide)).2.2.1⟩


theorem rejected_run_appends_one_error_entry_witness :
    initialState.loading = false
      ∧ (∀ ev ∈ [Event.selectLocation "Tokyo,jp", Event.reporterTimer],
          ev.isPassive = true)
      ∧ (exec (Event.click 0 0
            :: [Event.selectLocation "Tokyo,jp", Event.reporterTimer]
              ++ [Event.reject "network error" "t1"]) initialState).history
        = [{ location := "London"
             timestamp := "t1"
             status := "error"
             executionId := "N/A"
             version := none
             retries := none
             validationWarnings := none
             error := some "network error" }] :=
  ⟨by decide, by decide,
    rejected_run_appends_one_error_entry initialState 0 0
      [Event.selectLocation "Tokyo,jp", Event.reporterTimer] "network error" "t1"
      (by decide) (by decide)⟩

theorem markFailed_sets_one_stage_witness :
    initialState.loading = false
      ∧ (∃ t, resetStatus.get t = "loading")
      ∧ failedStage resetStatus = Stage.collector
      ∧ (exec [Event.click 0 0, Event.reject "network error" "t1"]
          initialState).pipelineStatus
        = { collector := "error", validator := "pending",
            processor := "pending", reporter := "pending" } :=
  ⟨by decide, ⟨Stage.collector, by decide⟩, by decide,
    (markFailed_sets_one_stage resetStatus initialState 0 0 "network error" "t1"
      (by decide)).2.2.2.2.2.1⟩

theorem success_timeline_witness :
    initialState.loading = false
      ∧ (exec [Event.click 0 0, Event.resolve ⟨"exec-1", "v1"⟩ "t1",
            Event.validatorTimer 0, Event.processorTimer,
            Event.reporterTimer] initialState).pipelineStatus
        = { collector := "success", validator := "success",
            processor := "success", reporter := "success" } :=
  ⟨by decide,
    (success_timeline initialState 0 0 0 ⟨"exec-1", "v1"⟩ "t1" (by decide)).2.2.2.2⟩

theorem resolved_run_appends_one_success_entry_witness :
    initialState.loading = false
      ∧ (∀ ev ∈ [Event.selectLocation "Tokyo,jp", Event.reporterTimer],
          ev.isPassive = true)
      ∧ (exec (Event.click 0 0
            :: [Event.selectLocation "Tokyo,jp", Event.reporterTimer]
              ++ [Event.resolve ⟨"exec-1", "v1"⟩ "t1"]) initialState).history
        = [{ location := "London"
             timestamp := "t1"
             status := "success"
             executionId := "exec-1"
             version := some "v1"
             retries := some (retrySample 0 + retrySample 0)
             validationWarnings := some 0
             error := none }] :=
  ⟨by decide, by decide,
    (resolved_run_appends_one_success_entry initialState 0 0
      [Event.selectLocation "Tokyo,jp", Event.reporterTimer] ⟨"exec-1", "v1"⟩ "t1"
      (by decide) (by decide)).2⟩

theorem success_entry_appended_with_first_advance_witness :
    initialState.loading = false
      ∧ (∀ ev ∈ [Event.reporterTimer], ev.isPassive = true)
      ∧ (exec (Event.click 0 0 :: [Event.reporterTimer]
            ++ [Event.resolve ⟨"exec-1", "v1"⟩ "t1"])
          initialState).pipelineStatus.validator = "loading" :=
  ⟨by decide, by decide,
    (success_entry_appended_with_first_advance initialState 0 0 0 [Event.reporterTimer]
      ⟨"exec-1", "v1"⟩ "t1" (by decide) (by decide)).2.2.2.1⟩

/-! ## Statistics across a run -/

theorem run_resolved_history (s : AppState) (rw rb : ℚ) (mid : List Event)
    (data : ResponseData) (now : String)
    (hload : s.loading = false) (hmid : ∀ ev ∈ mid, ev.isPassive = true) :
    (exec (Event.click rw rb :: mid ++ [Event.resolve data now]) s).history
      = appendHistory
          (successEntry
            ⟨splitLoc s.location, splitCountry s.location, retrySample rw, retrySample rb,
              s.validationErrors⟩ data now) s.history := by
  obtain ⟨hh, hi, -, -⟩ := exec_passive mid (triggerPipelineStart rw rb s) hmid
  rw [List.cons_append, exec, exec_append, step_click rw rb s hload, exec, exec,
    step_resolve_history data now _ _ hi, hh]
  rfl

theorem run_rejected_history (s : AppState) (rw rb : ℚ) (mid : List Event)
    (message now : String)
    (hload : s.loading = false) (hmid : ∀ ev ∈ mid, ev.isPassive = true) :
    (exec (Event.click rw rb :: mid ++ [Event.reject message now]) s).history
      = appendHistory
          (errorEntry
            ⟨splitLoc s.location, splitCountry s.location, retrySample rw, retrySample rb,
              s.validationErrors⟩ message now) s.history := by
  obtain ⟨hh, hi, -, -⟩ := exec_passive mid (triggerPipelineStart rw rb s) hmid
  rw [List.cons_append, exec, exec_append, step_click rw rb s hload, exec, exec,
    step_reject_history message now _ _ hi, hh]
  rfl

theorem appendHistory_of_lt (e : HistoryEntry) (L : List HistoryEntry)
    (h : L.length < 20) : appendHistory e L = e :: L := by
  rw [appendHistory]
  exact List.take_of_length_le (by simp only [List.length_cons]; omega)

theorem stats_cons (e : HistoryEntry) (L : List HistoryEntry) :
    calculateStatistics (e :: L)
      = { total := (calculateStatistics L).total + 1
          successful := (calculateStatistics L).successful
            + (if e.status = "success" then 1 else 0)
          failed := (calculateStatistics L).failed
            + (if e.status = "error" then 1 else 0) } := by
  simp only [calculateStatistics, List.length_cons, List.filter_cons, beq_iff_eq]
  by_cases h1 : e.status = "success" <;> by_cases h2 : e.status = "error" <;>
    simp [h1, h2]

theorem stats_append (A B : List HistoryEntry) :
    calculateStatistics (A ++ B)
      = { total := (calculateStatistics A).total + (calculateStatistics B).total
          successful := (calculateStatistics A).successful
            + (calculateStatistics B).successful
          failed := (calculateStatistics A).failed + (calculateStatistics B).failed } := by
  simp [calculateStatistics, List.filter_append]

/-- Claim C11 as stated fails: after 20 runs (10 successful, 10 rejected,
the oldest one rejected) the history is full; one more successful run leaves
`total` at 20, and one more rejected run leaves `failed` at 10. -/
theorem full_ledger_total_does_not_grow :
    calculateStatistics (exec (sampleRuns 20) initialState).history
        = { total := 20, successful := 10, failed := 10 }
      ∧ (calculateStatistics
          (exec [Event.click 0 0, Event.resolve ⟨"exec-21", "v1"⟩ "t21"]
            (exec (sampleRuns 20) initialState)).history).total = 20
      ∧ (calculateStatistics
          (exec [Event.click 0 0, Event.reject "network error" "t21"]
            (exec (sampleRuns 20) initialState)).history).failed = 10 := by
  decide

/-- Claim C11 amended: for a prior history of fewer than 20 entries, a run
whose call succeeds raises `total` and `successful` by 1 and leaves `failed`,
and a run whose call is rejected raises `total` and `failed` by 1 and leaves
`successful`.  For a prior history of 20 entries `total` stays 20 after
either run. -/
theorem stats_after_run (s : AppState) (rw rb : ℚ) (mid : List Event)
    (data : ResponseData) (message now : String)
    (hload : s.loading = false) (hmid : ∀ ev ∈ mid, ev.isPassive = true) :
    (s.history.length < 20 →
      calculateStatistics
          (exec (Event.click rw rb :: mid ++ [Event.resolve data now]) s).history
        = { total := (calculateStatistics s.history).total + 1
            successful := (calculateStatistics s.history).successful + 1
            failed := (calculateStatistics s.history).failed }
      ∧ calculateStatistics
          (exec (Event.click rw rb :: mid ++ [Event.reject message now]) s).history
        = { total := (calculateStatistics s.history).total + 1
            successful := (calculateStatistics s.history).successful
            failed := (calculateStatistics s.history).failed + 1 })
    ∧ (s.history.length = 20 →
      (calculateStatistics
          (exec (Event.click rw rb :: mid ++ [Event.resolve data now]) s).history).total
        = 20
      ∧ (calculateStatistics
          (exec (Event.click rw rb :: mid ++ [Event.reject message now]) s).history).total
        = 20) := by
  rw [run_resolved_history s rw rb mid data now hload hmid,
    run_rejected_history s rw rb mid message now hload hmid]
  constructor
  · intro hlt
    rw [appendHistory_of_lt _ _ hlt, appendHistory_of_lt _ _ hlt, stats_cons, stats_cons]
    simp [successEntry, errorEntry]
  · intro heq
    simp only [calculateStatistics, appendHistory_length, heq]
    decide

/-! ## Audit projection -/

theorem mockLogsFrom_length (clock : Nat → Nat) (k : Nat) (L : List HistoryEntry) :
    (mockLogsFrom clock k L).length = L.length := by
  induction L generalizing k with
  | nil => rfl
  | cons h hs ih => simp [mockLogsFrom, ih]

theorem mockLogsFrom_getElem? (clock : Nat → Nat) (k : Nat) (L : List HistoryEntry)
    (i : Nat) :
    (mockLogsFrom clock k L)[i]?
      = L[i]?.map (fun h => mockLog h (k + i) (clock (k + i))) := by
  induction L generalizing k i with
  | nil => simp [mockLogsFrom]
  | cons h hs ih =>
    cases i with
    | zero => simp [mockLogsFrom]
    | succ i =>
      simp only [mockLogsFrom, List.getElem?_cons_succ, ih]
      have : k + 1 + i = k + (i + 1) := by omega
      rw [this]

theorem fetchAuditLogs_getElem? (clock : Nat → Nat) (L : List HistoryEntry) (i : Nat) :
    (fetchAuditLogs L clock)[i]? = L[i]?.map (fun h => mockLog h i (clock i)) := by
  rw [fetchAuditLogs, mockLogsFrom_getElem?]
  simp

/-- Claim C12: the audit projection has as many rows as the history has
entries, and row `i` carries the `executionId`, `status`, `timestamp` and
`location` of entry `i` and the stage label "reporting". -/
theorem audit_rows_match_entries (L : List HistoryEntry) (clock : Nat → Nat) (i : Nat) :
    (fetchAuditLogs L clock).length = L.length
      ∧ (fetchAuditLogs L clock)[i]?.map
          (fun r => (r.execution_id, r.status, r.timestamp, r.location, r.stage))
        = L[i]?.map
          (fun h => (h.executionId, h.status, h.timestamp, h.location, "reporting")) := by
  refine ⟨mockLogsFrom_length clock 0 L, ?_⟩
  rw [fetchAuditLogs_getElem?]
  cases L[i]? <;> rfl

/-- Claim C13: row `i` of the audit projection has `id = i + 1`; two rows of
one projection at different positions have different ids; and for the history
after any trace of events from the initial state every id lies between 1 and
20. -/
theorem audit_ids_sequential (L : List HistoryEntry) (clock : Nat → Nat)
    (evs : List Event) :
    (∀ (i : Nat) (r : AuditRow), (fetchAuditLogs L clock)[i]? = some r → r.id = i + 1)
      ∧ (∀ (i j : Nat) (r r' : AuditRow), (fetchAuditLogs L clock)[i]? = some r →
          (fetchAuditLogs L clock)[j]? = some r' → i ≠ j → r.id ≠ r'.id)
      ∧ (∀ r ∈ fetchAuditLogs (exec evs initialState).history clock,
          1 ≤ r.id ∧ r.id ≤ 20) := by
  have hid : ∀ (M : List HistoryEntry) i r,
      (fetchAuditLogs M clock)[i]? = some r → r.id = i + 1 := by
    intro M i r h
    rw [fetchAuditLogs_getElem?] at h
    cases hM : M[i]? with
    | none => simp [hM] at h
    | some e =>
      simp only [hM, Option.map_some', Option.some.injEq] at h
      rw [← h]; rfl
  refine ⟨hid L, ?_, ?_⟩
  · intro i j r r' hi hj hne heq
    rw [hid L i r hi, hid L j r' hj] at heq
    omega
  · intro r hr
    obtain ⟨i, hi⟩ := List.mem_iff_getElem?.mp hr
    have hlt : i < (fetchAuditLogs (exec evs initialState).history clock).length := by
      by_contra hge
      rw [List.getElem?_eq_none (by omega)] at hi
      cases hi
    have hlen := exec_history_length_le evs initialState (by decide)
    rw [fetchAuditLogs, mockLogsFrom_length] at hlt
    rw [hid _ i r hi]
    omega

theorem digitChar_inj_of_lt : ∀ a < 10, ∀ b < 10,
    Nat.digitChar a = Nat.digitChar b → a = b := by
  decide

theorem map_digitChar_inj : ∀ (A B : List Nat), (∀ a ∈ A, a < 10) → (∀ b ∈ B, b < 10) →
    A.map Nat.digitChar = B.map Nat.digitChar → A = B
  | [], [], _, _, _ => rfl
  | [], _ :: _, _, _, h => by simp at h
  | _ :: _, [], _, _, h => by simp at h
  | a :: A, b :: B, hA, hB, h => by
    simp only [List.map_cons, List.cons.injEq] at h
    have h1 := digitChar_inj_of_lt a (hA a (List.mem_cons_self _ _))
      b (hB b (List.mem_cons_self _ _)) h.1
    have h2 := map_digitChar_inj A B (fun x hx => hA x (List.mem_cons_of_mem _ hx))
      (fun x hx => hB x (List.mem_cons_of_mem _ hx)) h.2
    rw [h1, h2]

theorem decimal_ne_zero_string (n : Nat) (hn : n ≠ 0) :
    String.mk ((Nat.digits 10 n).reverse.map Nat.digitChar) ≠ "0" := by
  intro h
  have h1 : (Nat.digits 10 n).reverse.map Nat.digitChar = ['0'] := by
    have := congrArg String.data h
    simpa using this
  have h2 : (Nat.digits 10 n).reverse.map Nat.digitChar = [0].map Nat.digitChar := by
    rw [h1]; rfl
  have h3 := map_digitChar_inj _ _
    (fun a ha => Nat.digits_lt_base (by decide) (List.mem_reverse.mp ha))
    (by decide) h2
  have h4 : Nat.digits 10 n = [0] := by
    have := congrArg List.reverse h3
    simpa using this
  have h5 := Nat.getLast_digit_ne_zero 10 hn
  simp [h4] at h5

theorem decimal_injective (a b : Nat) (h : decimal a = decimal b) : a = b := by
  unfold decimal at h
  by_cases ha : a = 0 <;> by_cases hb : b = 0
  · rw [ha, hb]
  · rw [if_pos ha, if_neg hb] at h
    exact absurd h.symm (decimal_ne_zero_string b hb)
  · rw [if_neg ha, if_pos hb] at h
    exact absurd h (decimal_ne_zero_string a ha)
  · rw [if_neg ha, if_neg hb] at h
    have h1 : (Nat.digits 10 a).reverse.map Nat.digitChar
        = (Nat.digits 10 b).reverse.map Nat.digitChar := by
      have := congrArg String.data h
      simpa using this
    have h2 := map_digitChar_inj _ _
      (fun x hx => Nat.digits_lt_base (by decide) (List.mem_reverse.mp hx))
      (fun x hx => Nat.digits_lt_base (by decide) (List.mem_reverse.mp hx)) h1
    exact Nat.digits_inj_iff.mp (List.reverse_injective h2)

theorem versionLabel_injective (a b : Nat) (h : versionLabel a = versionLabel b) :
    a = b := by
  unfold versionLabel at h
  have h1 := congrArg String.data h
  simp only [String.data_append, List.append_cancel_left_eq] at h1
  exact decimal_injective a b (String.ext h1)

/-- Claim C14 as stated fails: with two entries in the history, a first call
whose clock reads 1761350400000 and then 1761350400001 and a second call
made one millisecond later give the same version label in row 1. -/
theorem version_label_repeats :
    (fetchAuditLogs [sampleEntry 0, sampleEntry 1]
        (fun i => 1761350400000 + i))[1]?.map (fun r => r.version)
      = some "v2025-10-25_1761350400001"
    ∧ (fetchAuditLogs [sampleEntry 0, sampleEntry 1]
        (fun _ => 1761350400001))[1]?.map (fun r => r.version)
      = some "v2025-10-25_1761350400001" := by
  constructor <;>
    norm_num [fetchAuditLogs, mockLogsFrom, mockLog, versionLabel, decimal, Nat.digitChar] <;>
    decide

/-- Claim C14 amended: the version label of a row is "v2025-10-25_" followed
by the decimal clock reading taken while the row is built; for two calls of
the projection on a history, the labels of row `i` are equal exactly when the
two clock readings for row `i` are equal. -/
theorem version_label_follows_clock (L : List HistoryEntry) (c1 c2 : Nat → Nat)
    (i : Nat) (hi : i < L.length) :
    (fetchAuditLogs L c1)[i]?.map (fun r => r.version)
        = some ("v2025-10-25_" ++ decimal (c1 i))
      ∧ ((fetchAuditLogs L c1)[i]?.map (fun r => r.version)
          = (fetchAuditLogs L c2)[i]?.map (fun r => r.version)
        ↔ c1 i = c2 i) := by
  rw [fetchAuditLogs_getElem?, fetchAuditLogs_getElem?, List.getElem?_eq_getElem hi]
  simp only [Option.map_some', mockLog, Option.some.injEq]
  refine ⟨rfl, ?_, ?_⟩
  · exact versionLabel_injective _ _
  · intro h; rw [h]

/-- Claim C15: the statistics depend on the sequence of entry statuses only
(so computing them twice from one history gives equal results), and two
audit projections of one history under any two clocks agree in `id`,
`execution_id`, `stage`, `status`, `timestamp` and `location` of every
row. -/
theorem derived_views_deterministic (L L' : List HistoryEntry) (c1 c2 : Nat → Nat)
    (h : L.map (fun e => e.status) = L'.map (fun e => e.status)) :
    calculateStatistics L = calculateStatistics L'
      ∧ (fetchAuditLogs L c1).map
          (fun r => (r.id, r.execution_id, r.stage, r.status, r.timestamp, r.location))
        = (fetchAuditLogs L c2).map
          (fun r => (r.id, r.execution_id, r.stage, r.status, r.timestamp, r.location)) := by
  constructor
  · have hlen : L.length = L'.length := by
      have := congrArg List.length h
      simpa using this
    have hf : ∀ v : String, (L.filter (fun e => e.status == v)).length
        = (L'.filter (fun e => e.status == v)).length := by
      intro v
      have h1 : ∀ M : List HistoryEntry, (M.filter (fun e => e.status == v)).length
          = ((M.map (fun e => e.status)).filter (fun x => x == v)).length := by
        intro M
        rw [List.filter_map, List.length_map]
        rfl
      rw [h1 L, h1 L', h]
    simp only [calculateStatistics, hlen, hf]
  · apply List.ext_getElem?
    intro i
    rw [List.getElem?_map, List.getElem?_map, fetchAuditLogs_getElem?,
      fetchAuditLogs_getElem?]
    cases L[i]? <;> rfl

/-! ## Start of a run and stage order -/

/-- Claim C16, start-of-run reset: whatever the prior state, the writes
before the `try` leave an empty warning set, both retry counts 0 and the
statuses (loading, pending, pending, pending); when the request is sent the
warning set and the statuses are still those and the retry counts are the
two samples, so two prior states give the same three values; no stage is
"success" or "error". -/
theorem start_of_run_reset (s s' : AppState) (rw rb : ℚ)
    (hload : s.loading = false) (hload' : s'.loading = false) :
    ((resetRun s).validationErrors = []
        ∧ (resetRun s).retryAttempts = { weather := 0, bitcoin := 0 }
        ∧ (resetRun s).pipelineStatus
          = { collector := "loading", validator := "pending",
              processor := "pending", reporter := "pending" })
      ∧ ((step (Event.click rw rb) s).validationErrors = []
        ∧ (step (Event.click rw rb) s).retryAttempts
          = { weather := retrySample rw, bitcoin := retrySample rb }
        ∧ (step (Event.click rw rb) s).pipelineStatus
          = { collector := "loading", validator := "pending",
              processor := "pending", reporter := "pending" })
      ∧ ((step (Event.click rw rb) s).validationErrors
          = (step (Event.click rw rb) s').validationErrors
        ∧ (step (Event.click rw rb) s).retryAttempts
          = (step (Event.click rw rb) s').retryAttempts
        ∧ (step (Event.click rw rb) s).pipelineStatus
          = (step (Event.click rw rb) s').pipelineStatus)
      ∧ (∀ t, (step (Event.click rw rb) s).pipelineStatus.get t ≠ "success"
          ∧ (step (Event.click rw rb) s).pipelineStatus.get t ≠ "error") := by
  rw [step_click rw rb s hload, step_click rw rb s' hload']
  refine ⟨⟨rfl, rfl, rfl⟩, ⟨rfl, rfl, rfl⟩, ⟨rfl, rfl, rfl⟩, ?_⟩
  intro t
  have h : (triggerPipelineStart rw rb s).pipelineStatus = resetStatus := rfl
  rw [h]
  cases t <;> decide

theorem run_statuses (s : AppState) (rw rb rv : ℚ) (data : ResponseData)
    (message now : String) (hload : s.loading = false) :
    (exec [Event.click rw rb] s).pipelineStatus = resetStatus
      ∧ (exec [Event.click rw rb, Event.resolve data now] s).pipelineStatus
        = collectorAdvance resetStatus
      ∧ (exec [Event.click rw rb, Event.resolve data now,
          Event.validatorTimer rv] s).pipelineStatus
        = validatorAdvance (collectorAdvance resetStatus)
      ∧ (exec [Event.click rw rb, Event.resolve data now,
          Event.validatorTimer rv, Event.processorTimer] s).pipelineStatus
        = processorAdvance (validatorAdvance (collectorAdvance resetStatus))
      ∧ (exec [Event.click rw rb, Event.resolve data now,
          Event.validatorTimer rv, Event.processorTimer,
          Event.reporterTimer] s).pipelineStatus
        = reporterAdvance
            (processorAdvance (validatorAdvance (collectorAdvance resetStatus)))
      ∧ (exec [Event.click rw rb, Event.reject message now] s).pipelineStatus
        = markFailed resetStatus := by
  simp only [exec, step_click rw rb s hload]
  simp only [step, triggerPipelineStart, triggerPipelineResolved, triggerPipelineRejected,
    resetRun, validatorTimer, processorTimer, reporterTimer, and_self]

/-- Claim C17, stage order within one run: in each state of the timeline
of a successful run (start, then the four advances in order) and of a
rejected run (start, then the failure update), a stage is "loading" only if
all earlier stages are "success" and at most one stage is "loading"; from
each state to the next no stage goes from "success" or "error" back to
"pending" or "loading". -/
theorem stage_order_within_run (s : AppState) (rw rb rv : ℚ) (data : ResponseData)
    (message now : String) (hload : s.loading = false) :
    (∀ p ∈ [(exec [Event.click rw rb] s).pipelineStatus,
          (exec [Event.click rw rb, Event.resolve data now] s).pipelineStatus,
          (exec [Event.click rw rb, Event.resolve data now,
            Event.validatorTimer rv] s).pipelineStatus,
          (exec [Event.click rw rb, Event.resolve data now,
            Event.validatorTimer rv, Event.processorTimer] s).pipelineStatus,
          (exec [Event.click rw rb, Event.resolve data now,
            Event.validatorTimer rv, Event.processorTimer,
            Event.reporterTimer] s).pipelineStatus,
          (exec [Event.click rw rb, Event.reject message now] s).pipelineStatus],
        loadingOnlyAfterSuccess p = true ∧ atMostOneLoading p = true)
      ∧ List.Chain' (fun p q => noBackward p q = true)
          [(exec [Event.click rw rb] s).pipelineStatus,
            (exec [Event.click rw rb, Event.resolve data now] s).pipelineStatus,
            (exec [Event.click rw rb, Event.resolve data now,
              Event.validatorTimer rv] s).pipelineStatus,
            (exec [Event.click rw rb, Event.resolve data now,
              Event.validatorTimer rv, Event.processorTimer] s).pipelineStatus,
            (exec [Event.click rw rb, Event.resolve data now,
              Event.validatorTimer rv, Event.processorTimer,
              Event.reporterTimer] s).pipelineStatus]
      ∧ List.Chain' (fun p q => noBackward p q = true)
          [(exec [Event.click rw rb] s).pipelineStatus,
            (exec [Event.click rw rb, Event.reject message now] s).pipelineStatus] := by
  obtain ⟨h0, h1, h2, h3, h4, h5⟩ := run_statuses s rw rb rv data message now hload
  rw [h0, h1, h2, h3, h4, h5]
  refine ⟨by decide, ?_, ?_⟩
  · simp only [List.chain'_cons, List.chain'_singleton, and_true]
    decide
  · simp only [List.chain'_cons, List.chain'_singleton, and_true]
    decide

/-- Claim C18 as stated fails: from the start-of-run statuses the validator
advance followed by the collector advance takes the validator from
"success" back to "loading". -/
theorem advance_can_move_backward :
    statusTrace [Advance.validator, Advance.collector] resetStatus
        = [{ collector := "loading", validator := "pending",
             processor := "pending", reporter := "pending" },
           { collector := "loading", validator := "success",
             processor := "loading", reporter := "pending" },
           { collector := "success", validator := "loading",
             processor := "loading", reporter := "pending" }]
      ∧ movesBackwardAt (Advance.validator.apply resetStatus)
          (Advance.collector.apply (Advance.validator.apply resetStatus))
          Stage.validator = true := by
  decide

theorem not_open_of_finished (x : String) (h : x = "success" ∨ x = "error") :
    ¬x = "pending" ∧ ¬x = "loading" := by
  rcases h with rfl | rfl <;> decide

theorem movesBackwardAt_apply (p : PipelineStatus) (a : Advance) (t : Stage)
    (h : movesBackwardAt p (a.apply p) t = true) :
    a.next = some t ∧ (a.apply p).get t = "loading" := by
  obtain ⟨c, v, pr, r⟩ := p
  revert h
  cases a <;> cases t <;>
    simp [Advance.apply, collectorAdvance, validatorAdvance, processorAdvance,
      reporterAdvance, PipelineStatus.get, movesBackwardAt, isFinished, isOpen,
      Advance.next] <;>
    exact not_open_of_finished _

/-- Claim C18 amended: for every status map and every advance, the advance
sets no stage to "pending"; a stage that it moves backward is the stage that
follows the advanced one and is set to "loading"; when that following stage
is not yet "success" or "error" the advance moves no stage backward; and the
four advances in scheduled order from the start-of-run statuses move no stage
backward. -/
theorem advance_backward_only_next_stage (p : PipelineStatus) (a : Advance) (t : Stage) :
    ((a.apply p).get t = "pending" → p.get t = "pending")
      ∧ (movesBackwardAt p (a.apply p) t = true →
          a.next = some t ∧ (a.apply p).get t = "loading")
      ∧ ((∀ u, a.next = some u → isFinished (p.get u) = false) →
          noBackward p (a.apply p) = true)
      ∧ List.Chain' (fun q q' => noBackward q q' = true)
          (statusTrace [Advance.collector, Advance.validator, Advance.processor,
            Advance.reporter] resetStatus) := by
  refine ⟨?_, movesBackwardAt_apply p a t, ?_, ?_⟩
  · obtain ⟨c, v, pr, r⟩ := p
    cases a <;> cases t <;>
      simp [Advance.apply, collectorAdvance, validatorAdvance, processorAdvance,
        reporterAdvance, PipelineStatus.get]
  · intro h
    rw [noBackward, List.all_eq_true]
    intro u _
    cases hb : movesBackwardAt p (a.apply p) u with
    | false => rfl
    | true =>
      have h1 := h u (movesBackwardAt_apply p a u hb).1
      simp [movesBackwardAt, h1] at hb
  · simp only [statusTrace, List.chain'_cons, List.chain'_singleton, and_true]
    decide

/-- Claim C20: two runs from the same state with the same executor result
that differ only in the three random draws send the same request, go through
the same statuses after the start and after each advance (or after the
failure update), and append entries with the same `status` and
`executionId`. -/
theorem samples_do_not_change_outcome (s : AppState) (rw rb rv rw' rb' rv' : ℚ)
    (data : ResponseData) (message now : String) (n : Nat)
    (hload : s.loading = false) :
    ((exec [Event.click rw rb] s).inflight.map requestOf
        = some { location := splitLoc s.location, country := splitCountry s.location }
      ∧ (exec [Event.click rw' rb'] s).inflight.map requestOf
        = some { location := splitLoc s.location, country := splitCountry s.location })
    ∧ (exec ([Event.click rw rb, Event.resolve data now, Event.validatorTimer rv,
          Event.processorTimer, Event.reporterTimer].take n) s).pipelineStatus
      = (exec ([Event.click rw' rb', Event.resolve data now, Event.validatorTimer rv',
          Event.processorTimer, Event.reporterTimer].take n) s).pipelineStatus
    ∧ (exec [Event.click rw rb, Event.resolve data now] s).history.map
        (fun h => (h.status, h.executionId))
      = (exec [Event.click rw' rb', Event.resolve data now] s).history.map
        (fun h => (h.status, h.executionId))
    ∧ (exec ([Event.click rw rb, Event.reject message now].take n) s).pipelineStatus
      = (exec ([Event.click rw' rb', Event.reject message now].take n) s).pipelineStatus
    ∧ (exec [Event.click rw rb, Event.reject message now] s).history.map
        (fun h => (h.status, h.executionId))
      = (exec [Event.click rw' rb', Event.reject message now] s).history.map
        (fun h => (h.status, h.executionId)) := by
  refine ⟨⟨?_, ?_⟩, ?_, ?_, ?_, ?_⟩
  · rw [exec, step_click rw rb s hload]; rfl
  · rw [exec, step_click rw' rb' s hload]; rfl
  · rcases n with _ | _ | _ | _ | _ | n <;>
      simp only [List.take, exec, step_click _ _ s hload] <;>
      simp only [step, triggerPipelineStart, triggerPipelineResolved, resetRun,
        validatorTimer, processorTimer, reporterTimer, List.take_nil, exec]
  · simp only [exec, step_click _ _ s hload]
    simp [step, triggerPipelineStart, triggerPipelineResolved, resetRun, appendHistory,
      successEntry]
  · rcases n with _ | _ | n <;>
      simp only [List.take, exec, step_click _ _ s hload] <;>
      simp only [step, triggerPipelineStart, triggerPipelineRejected, resetRun,
        List.take_nil, exec]
  · simp only [exec, step_click _ _ s hload]
    simp [step, triggerPipelineStart, triggerPipelineRejected, resetRun, appendHistory,
      errorEntry]

/-! ## Overlapping runs -/

theorem perform_append (a b : List Action) (σ : Scheduled) :
    perform (a ++ b) σ = perform b (perform a σ) := by
  induction a generalizing σ with
  | nil => rfl
  | cons x a ih => exact ih _

theorem timerKind_delay_le (k : TimerKind) : k.delay ≤ 4500 := by
  cases k <;> decide

theorem timerKind_run_status (k : TimerKind) (rv : ℚ) (s : AppState) :
    (k.run rv s).pipelineStatus = k.advance s.pipelineStatus
      ∧ (k.run rv s).inflight = s.inflight := by
  cases k <;> exact ⟨rfl, rfl⟩

/-- A background action keeps the suspended call. -/
theorem act_background_inflight (a : Action) (σ : Scheduled)
    (ha : a.isBackground = true) : (act a σ).app.inflight = σ.app.inflight := by
  cases a with
  | selectLocation v => rfl
  | fire i rv =>
    simp only [act]
    cases hk : σ.timers[i]? with
    | none => rfl
    | some k =>
      by_cases hc : canFire σ.timers i = true
      · simp only [hc, if_true]
        exact (timerKind_run_status k rv σ.app).2
      · simp only [hc]
        rfl
  | click _ _ => simp [Action.isBackground] at ha
  | resolve _ _ => simp [Action.isBackground] at ha
  | reject _ _ => simp [Action.isBackground] at ha

theorem perform_background_inflight (as : List Action) (σ : Scheduled)
    (h : ∀ a ∈ as, a.isBackground = true) :
    (perform as σ).app.inflight = σ.app.inflight := by
  induction as generalizing σ with
  | nil => rfl
  | cons a as ih =>
    rw [perform, ih _ (fun x hx => h x (List.mem_cons_of_mem _ hx)),
      act_background_inflight a σ (h a (List.mem_cons_self _ _))]

theorem act_background_reporterLast (a : Action) (σ : Scheduled)
    (ha : a.isBackground = true) (hJ : ReporterLast σ) : ReporterLast (act a σ) := by
  cases a with
  | selectLocation v => exact hJ
  | click _ _ => simp [Action.isBackground] at ha
  | resolve _ _ => simp [Action.isBackground] at ha
  | reject _ _ => simp [Action.isBackground] at ha
  | fire i rv =>
    simp only [act]
    cases hk : σ.timers[i]? with
    | none => exact hJ
    | some k =>
      by_cases hc : canFire σ.timers i = true
      · simp only [hc, if_true]
        rcases hJ with ⟨hnil, -⟩ | ⟨init, hinit⟩
        · rw [hnil] at hk; simp at hk
        · rcases Nat.lt_trichotomy i init.length with hlt | heq | hgt
          · right
            refine ⟨init.eraseIdx i, ?_⟩
            show σ.timers.eraseIdx i = _
            rw [hinit, List.eraseIdx_append_of_lt_length hlt]
          · left
            have hk2 : k = TimerKind.reporter := by
              rw [hinit, heq] at hk
              simpa using hk.symm
            have hall : ∀ j ∈ init, k.delay < j.delay := by
              have hc2 := hc
              simp only [canFire, hk] at hc2
              rw [hinit, heq, List.take_left' rfl, List.all_eq_true] at hc2
              intro j hj
              simpa using hc2 j hj
            have hinit0 : init = [] := by
              cases init with
              | nil => rfl
              | cons j js =>
                have h1 := hall j (List.mem_cons_self _ _)
                have h2 := timerKind_delay_le j
                have h3 : TimerKind.reporter.delay = 4500 := rfl
                rw [hk2, h3] at h1
                omega
            refine ⟨?_, ?_⟩
            · show σ.timers.eraseIdx i = []
              rw [hinit, hinit0, heq, hinit0]; rfl
            · rw [hk2]; rfl
          · rw [hinit] at hk
            rw [List.getElem?_eq_none (by simp; omega)] at hk
            cases hk
      · simp only [hc]
        exact hJ

theorem perform_background_reporterLast (as : List Action) (σ : Scheduled)
    (h : ∀ a ∈ as, a.isBackground = true) (hJ : ReporterLast σ) :
    ReporterLast (perform as σ) := by
  induction as generalizing σ with
  | nil => exact hJ
  | cons a as ih =>
    exact ih _ (fun x hx => h x (List.mem_cons_of_mem _ hx))
      (act_background_reporterLast a σ (h a (List.mem_cons_self _ _)) hJ)

theorem act_click (rw rb : ℚ) (σ : Scheduled) (hload : σ.app.loading = false) :
    act (Action.click rw rb) σ
      = { app := triggerPipelineStart rw rb σ.app, timers := σ.timers } := by
  simp only [act, step_click rw rb σ.app hload]

theorem act_resolve_timers (data : ResponseData) (now : String) (σ : Scheduled)
    (c : PendingCall) (h : σ.app.inflight = some c) :
    (act (Action.resolve data now) σ).timers
      = σ.timers ++ [TimerKind.validator, TimerKind.processor, TimerKind.reporter] := by
  simp only [act, h]

/-- Claim C19 as stated fails: a second run is started while the three
advances of the first are pending.  The validator advance of the first run
then fires on the statuses the second run has reset and changes them; and
when the second run is rejected, the statuses after all timers have fired
are four times "success" although its own timeline ends with the collector
"error" and the other stages "pending". -/
theorem pending_advance_reaches_second_run :
    (perform [Action.click 0 0, Action.resolve ⟨"exec-1", "v1"⟩ "t1",
        Action.click 0 0] initialScheduled).timers
      = [TimerKind.validator, TimerKind.processor, TimerKind.reporter]
    ∧ (perform [Action.click 0 0, Action.resolve ⟨"exec-1", "v1"⟩ "t1",
        Action.click 0 0] initialScheduled).app.pipelineStatus
      = { collector := "loading", validator := "pending",
          processor := "pending", reporter := "pending" }
    ∧ (perform [Action.click 0 0, Action.resolve ⟨"exec-1", "v1"⟩ "t1",
        Action.click 0 0, Action.fire 0 0] initialScheduled).app.pipelineStatus
      = { collector := "loading", validator := "success",
          processor := "loading", reporter := "pending" }
    ∧ (perform [Action.click 0 0, Action.resolve ⟨"exec-1", "v1"⟩ "t1",
        Action.click 0 0, Action.reject "network error" "t2", Action.fire 0 0,
        Action.fire 0 0, Action.fire 0 0] initialScheduled).timers = []
    ∧ (perform [Action.click 0 0, Action.resolve ⟨"exec-1", "v1"⟩ "t1",
        Action.click 0 0, Action.reject "network error" "t2", Action.fire 0 0,
        Action.fire 0 0, Action.fire 0 0] initialScheduled).app.pipelineStatus
      = { collector := "success", validator := "success",
          processor := "success", reporter := "success" }
    ∧ (exec [Event.click 0 0, Event.reject "network error" "t2"]
        initialState).pipelineStatus
      = { collector := "error", validator := "pending",
          processor := "pending", reporter := "pending" } := by
  decide

/-- Claim C19 amended: pending advances are never cancelled.  A pending
advance that the timer rules allow to fire after a new run has reset the
statuses is applied to the reset statuses and changes them.  When the new
run's executor call succeeds, then once no timer is pending all four stages
are "success", as at the end of the new run's own timeline, whatever
advances of earlier runs fired in between. -/
theorem overlapping_runs_end_in_success (σ : Scheduled) (rw rb : ℚ)
    (mid rest : List Action) (data : ResponseData) (now : String)
    (hload : σ.app.loading = false)
    (hmid : ∀ a ∈ mid, a.isBackground = true)
    (hrest : ∀ a ∈ rest, a.isBackground = true) :
    (∀ (i : Nat) (rv : ℚ) (k : TimerKind), σ.timers[i]? = some k →
        canFire σ.timers i = true →
        (perform [Action.click rw rb] σ).app.pipelineStatus = resetStatus
          ∧ (perform [Action.click rw rb, Action.fire i rv] σ).app.pipelineStatus
            = k.advance resetStatus
          ∧ k.advance resetStatus ≠ resetStatus
          ∧ (perform [Action.click rw rb, Action.fire i rv] σ).timers
            = σ.timers.eraseIdx i)
    ∧ ((perform (Action.click rw rb :: mid ++ Action.resolve data now :: rest) σ).timers
          = [] →
        (perform (Action.click rw rb :: mid ++ Action.resolve data now :: rest)
            σ).app.pipelineStatus
          = { collector := "success", validator := "success",
              processor := "success", reporter := "success" }) := by
  constructor
  · intro i rv k hk hc
    simp only [perform, act_click rw rb σ hload]
    refine ⟨rfl, ?_, by cases k <;> decide, ?_⟩
    · simp only [act, hk, hc, if_true]
      exact (timerKind_run_status k rv _).1
    · simp only [act, hk, hc, if_true]
  · intro hnil
    have hin : (perform mid (act (Action.click rw rb) σ)).app.inflight
        = some ⟨splitLoc σ.app.location, splitCountry σ.app.location, retrySample rw,
            retrySample rb, σ.app.validationErrors⟩ := by
      rw [perform_background_inflight mid _ hmid, act_click rw rb σ hload]
      rfl
    have hJ : ReporterLast (act (Action.resolve data now)
        (perform mid (act (Action.click rw rb) σ))) := by
      right
      refine ⟨(perform mid (act (Action.click rw rb) σ)).timers
        ++ [TimerKind.validator, TimerKind.processor], ?_⟩
      rw [act_resolve_timers data now _ _ hin]
      simp only [List.append_assoc, List.cons_append, List.nil_append]
    have hfinal := perform_background_reporterLast rest _ hrest hJ
    rw [List.cons_append, perform, perform_append, perform] at hnil ⊢
    rcases hfinal with ⟨-, hs⟩ | ⟨init, hinit⟩
    · rw [hs]; rfl
    · rw [hinit] at hnil
      simp at hnil

theorem overlapping_runs_end_in_success_witness :
    (perform [Action.click 0 0, Action.resolve ⟨"exec-1", "v1"⟩ "t1"]
        initialScheduled).app.loading = false
      ∧ (∀ a ∈ [Action.fire 0 0], a.isBackground = true)
      ∧ (∀ a ∈ [Action.fire 0 0, Action.fire 0 0, Action.fire 0 0, Action.fire 0 0,
            Action.fire 0 0], a.isBackground = true)
      ∧ (perform (Action.click 0 0 :: [Action.fire 0 0]
            ++ Action.resolve ⟨"exec-2", "v1"⟩ "t2"
              :: [Action.fire 0 0, Action.fire 0 0, Action.fire 0 0, Action.fire 0 0,
                  Action.fire 0 0])
          (perform [Action.click 0 0, Action.resolve ⟨"exec-1", "v1"⟩ "t1"]
            initialScheduled)).app.pipelineStatus
        = { collector := "success", validator := "success",
            processor := "success", reporter := "success" } :=
  ⟨by decide, by decide, by decide,
    (overlapping_runs_end_in_success
      (perform [Action.click 0 0, Action.resolve ⟨"exec-1", "v1"⟩ "t1"] initialScheduled)
      0 0 [Action.fire 0 0]
      [Action.fire 0 0, Action.fire 0 0, Action.fire 0 0, Action.fire 0 0, Action.fire 0 0]
      ⟨"exec-2", "v1"⟩ "t2" (by decide) (by decide) (by decide)).2 (by decide)⟩

/-! ## Instances at concrete inputs -/

theorem stats_after_run_witness :
    initialState.loading = false
      ∧ (∀ ev ∈ [Event.reporterTimer], ev.isPassive = true)
      ∧ initialState.history.length < 20
      ∧ calculateStatistics
          (exec (Event.click 0 0 :: [Event.reporterTimer]
            ++ [Event.resolve ⟨"exec-1", "v1"⟩ "t1"]) initialState).history
        = { total := 1, successful := 1, failed := 0 }
      ∧ calculateStatistics
          (exec (Event.click 0 0 :: [Event.reporterTimer]
            ++ [Event.reject "network error" "t1"]) initialState).history
        = { total := 1, successful := 0, failed := 1 } :=
  ⟨by decide, by decide, by decide,
    (stats_after_run initialState 0 0 [Event.reporterTimer] ⟨"exec-1", "v1"⟩
      "network error" "t1" (by decide) (by decide)).1 (by decide)⟩

theorem audit_ids_sequential_witness :
    (fetchAuditLogs [sampleEntry 0, sampleEntry 1] (fun _ => 5))[1]?
        = some (mockLog (sampleEntry 1) 1 5)
      ∧ (mockLog (sampleEntry 1) 1 5).id = 1 + 1 :=
  ⟨rfl,
    (audit_ids_sequential [sampleEntry 0, sampleEntry 1] (fun _ => 5) []).1 1
      (mockLog (sampleEntry 1) 1 5) rfl⟩

theorem version_label_follows_clock_witness :
    1 < [sampleEntry 0, sampleEntry 1].length
      ∧ ((fetchAuditLogs [sampleEntry 0, sampleEntry 1]
            (fun i => 1761350400000 + i))[1]?.map (fun r => r.version)
          = (fetchAuditLogs [sampleEntry 0, sampleEntry 1]
              (fun i => 1761350400005 + i))[1]?.map (fun r => r.version)
        ↔ 1761350400000 + 1 = 1761350400005 + 1) :=
  ⟨by decide,
    (version_label_follows_clock [sampleEntry 0, sampleEntry 1]
      (fun i => 1761350400000 + i) (fun i => 1761350400005 + i) 1 (by decide)).2⟩

theorem derived_views_deterministic_witness :
    [sampleEntry 1].map (fun e => e.status) = [sampleEntry 2].map (fun e => e.status)
      ∧ calculateStatistics [sampleEntry 1] = calculateStatistics [sampleEntry 2] :=
  ⟨by decide,
    (derived_views_deterministic [sampleEntry 1] [sampleEntry 2] (fun _ => 1) (fun _ => 2)
      (by decide)).1⟩

theorem start_of_run_reset_witness :
    initialState.loading = false
      ∧ (exec (sampleRuns 3) initialState).loading = false
      ∧ (step (Event.click 0 0) initialState).pipelineStatus
        = (step (Event.click 0 0) (exec (sampleRuns 3) initialState)).pipelineStatus :=
  ⟨by decide, by decide,
    (start_of_run_reset initialState (exec (sampleRuns 3) initialState) 0 0
      (by decide) (by decide)).2.2.1.2.2⟩

theorem stage_order_within_run_witness :
    initialState.loading = false
      ∧ List.Chain' (fun p q => noBackward p q = true)
          [(exec [Event.click 0 0] initialState).pipelineStatus,
            (exec [Event.click 0 0, Event.reject "network error" "t1"]
              initialState).pipelineStatus] :=
  ⟨by decide,
    (stage_order_within_run initialState 0 0 0 ⟨"exec-1", "v1"⟩ "network error" "t1"
      (by decide)).2.2⟩

theorem advance_backward_only_next_stage_witness :
    (∀ u, Advance.collector.next = some u → isFinished (resetStatus.get u) = false)
      ∧ noBackward resetStatus (Advance.collector.apply resetStatus) = true :=
  ⟨by decide,
    (advance_backward_only_next_stage resetStatus Advance.collector Stage.validator).2.2.1
      (by decide)⟩

theorem samples_do_not_change_outcome_witness :
    initialState.loading = false
      ∧ (exec ([Event.click 0 0, Event.resolve ⟨"exec-1", "v1"⟩ "t1",
            Event.validatorTimer 0, Event.processorTimer, Event.reporterTimer].take 3)
          initialState).pipelineStatus
        = (exec ([Event.click (1 / 2) (3 / 4), Event.resolve ⟨"exec-1", "v1"⟩ "t1",
            Event.validatorTimer (3 / 4), Event.processorTimer,
            Event.reporterTimer].take 3) initialState).pipelineStatus :=
  ⟨by decide,
    (samples_do_not_change_outcome initialState 0 0 0 (1 / 2) (3 / 4) (3 / 4)
      ⟨"exec-1", "v1"⟩ "network error" "t1" 3 (by decide)).2.1⟩


/-! ## Shape of the entries -/

theorem mem_runEntries (h : HistoryEntry) :
    ∀ (evs : List Event) (s : AppState), h ∈ runEntries evs s →
      (∃ c data now, Event.resolve data now ∈ evs ∧ h = successEntry c data now)
        ∨ (∃ c message now, Event.reject message now ∈ evs ∧ h = errorEntry c message now)
  | [], _, hm => by simp [runEntries] at hm
  | ev :: evs, s, hm => by
    rw [runEntries, List.mem_append] at hm
    rcases hm with hm | hm
    · cases ev <;> cases hc : s.inflight <;> simp [entryOf, hc] at hm
      · left; exact ⟨_, _, _, List.mem_cons_self _ _, hm⟩
      · right; exact ⟨_, _, _, List.mem_cons_self _ _, hm⟩
    · rcases mem_runEntries h evs _ hm with ⟨c, d, n, h1, h2⟩ | ⟨c, m, n, h1, h2⟩
      · left; exact ⟨c, d, n, List.mem_cons_of_mem _ h1, h2⟩
      · right; exact ⟨c, m, n, List.mem_cons_of_mem _ h1, h2⟩

theorem mem_history_runEntries (evs : List Event) (h : HistoryEntry)
    (hm : h ∈ (exec evs initialState).history) : h ∈ runEntries evs initialState := by
  rw [exec_history evs initialState (by decide)] at hm
  have h1 := List.mem_of_mem_take hm
  have h2 : h ∈ runEntries evs initialState ∨ h ∈ initialState.history := by
    simpa using h1
  rcases h2 with h2 | h2
  · exact h2
  · cases h2

/-- Claim C21: in the history after any trace of events from the initial
state, an entry has an `error` field exactly when its status is "error";
an entry with status "error" has `executionId` "N/A"; an entry with status
"success" carries the `execution_id` and the `version` of a successful
response of the trace. -/
theorem entry_shape (evs : List Event) (h : HistoryEntry)
    (hm : h ∈ (exec evs initialState).history) :
    (h.error.isSome = true ↔ h.status = "error")
      ∧ (h.status = "error" → h.executionId = "N/A")
      ∧ (h.status = "success" →
          ∃ data now, Event.resolve data now ∈ evs
            ∧ h.executionId = data.execution_id ∧ h.version = some data.version) := by
  rcases mem_runEntries h evs _ (mem_history_runEntries evs h hm) with
    ⟨c, d, n, h1, rfl⟩ | ⟨c, m, n, h1, rfl⟩
  · refine ⟨by simp [successEntry], by simp [successEntry], fun _ => ⟨d, n, h1, rfl, rfl⟩⟩
  · refine ⟨by simp [errorEntry], fun _ => rfl, ?_⟩
    intro hs
    simp [errorEntry] at hs

/-! ## Who marks the collector "success" -/

theorem markFailed_success (p : PipelineStatus) (t : Stage)
    (h : (markFailed p).get t = "success") : p.get t = "success" := by
  by_cases ht : t = failedStage p
  · rw [ht, markFailed, get_set_same] at h
    exact absurd h (by decide)
  · rwa [markFailed, get_set_other _ _ _ _ ht] at h

theorem act_noResponseYet (a : Action) (σ : Scheduled) (hQ : NoResponseYet σ)
    (ha : ∀ data now, a ≠ Action.resolve data now) : NoResponseYet (act a σ) := by
  obtain ⟨ht, hc⟩ := hQ
  cases a with
  | selectLocation v => exact ⟨ht, hc⟩
  | click rw rb =>
    refine ⟨ht, ?_⟩
    show (step (Event.click rw rb) σ.app).pipelineStatus.collector ≠ "success"
    simp only [step]
    split
    · exact hc
    · simp [triggerPipelineStart, resetRun, resetStatus]
  | resolve data now => exact absurd rfl (ha data now)
  | reject message now =>
    refine ⟨ht, ?_⟩
    show (step (Event.reject message now) σ.app).pipelineStatus.collector ≠ "success"
    simp only [step]
    cases σ.app.inflight with
    | none => exact hc
    | some c =>
      intro h
      exact hc (markFailed_success σ.app.pipelineStatus Stage.collector h)
  | fire i rv =>
    have : σ.timers[i]? = none := by rw [ht]; rfl
    simp only [act, this]
    exact ⟨ht, hc⟩

theorem perform_noResponseYet :
    ∀ (as : List Action) (σ : Scheduled), NoResponseYet σ →
      NoResponseYet (perform as σ) ∨ ∃ data now, Action.resolve data now ∈ as
  | [], _, hQ => Or.inl hQ
  | a :: as, σ, hQ => by
    by_cases ha : ∃ data now, a = Action.resolve data now
    · obtain ⟨d, n, rfl⟩ := ha
      exact Or.inr ⟨d, n, List.mem_cons_self _ _⟩
    · have ha2 : ∀ data now, a ≠ Action.resolve data now := fun d n h => ha ⟨d, n, h⟩
      rcases perform_noResponseYet as _ (act_noResponseYet a σ hQ ha2) with h | ⟨d, n, h⟩
      · exact Or.inl h
      · exact Or.inr ⟨d, n, List.mem_cons_of_mem _ h⟩

/-! ## Repeated appends, warnings and retry counts -/

/-- Claim C23: appending the same entry twice in a row puts it at positions
0 and 1, whatever the history already holds, and gives a history of length
`min (n + 2) 20` for a prior length `n`. -/
theorem append_twice_keeps_both (L : List HistoryEntry) (e : HistoryEntry) :
    (appendHistory e (appendHistory e L))[0]? = some e
      ∧ (appendHistory e (appendHistory e L))[1]? = some e
      ∧ (appendHistory e (appendHistory e L)).length = min (L.length + 2) 20 := by
  refine ⟨by simp [appendHistory], by simp [appendHistory], ?_⟩
  rw [appendHistory_length, appendHistory_length]
  omega

theorem step_validationErrors (ev : Event) (s : AppState)
    (h : (step ev s).validationErrors ≠ s.validationErrors) :
    (∃ rw rb, ev = Event.click rw rb ∧ (step ev s).validationErrors = [])
      ∨ (∃ rv, ev = Event.validatorTimer rv ∧ hasValidationIssue rv = true
          ∧ (step ev s).validationErrors = validationWarningStrings) := by
  cases ev with
  | selectLocation v => exact absurd rfl h
  | click rw rb =>
    left
    refine ⟨rw, rb, rfl, ?_⟩
    by_cases hl : s.loading = true
    · simp [step, hl] at h
    · simp [step, hl, triggerPipelineStart, resetRun]
  | resolve data now =>
    cases hc : s.inflight <;> simp [step, hc, triggerPipelineResolved] at h
  | reject message now =>
    cases hc : s.inflight <;> simp [step, hc, triggerPipelineRejected] at h
  | validatorTimer rv =>
    right
    by_cases hv : hasValidationIssue rv = true
    · exact ⟨rv, rfl, hv, by simp [step, validatorTimer, hv]⟩
    · simp [step, validatorTimer, hv] at h
  | processorTimer => exact absurd rfl h
  | reporterTimer => exact absurd rfl h

theorem step_warnings_invariant (ev : Event) (s : AppState)
    (h : s.validationErrors = [] ∨ s.validationErrors = validationWarningStrings) :
    (step ev s).validationErrors = []
      ∨ (step ev s).validationErrors = validationWarningStrings := by
  by_cases hne : (step ev s).validationErrors = s.validationErrors
  · rw [hne]; exact h
  · rcases step_validationErrors ev s hne with ⟨_, _, _, h1⟩ | ⟨_, _, _, h1⟩
    · exact Or.inl h1
    · exact Or.inr h1

/-- Claim C24: in the state after any trace of events from the initial
state the warning set is empty or holds exactly the two warnings
"Temperature out of normal range" and "Bitcoin rate fluctuation detected"
in this order.  An event changes the set only by emptying it at the start of
a run or by writing the two warnings in the validator callback, the one that
marks the validator "success" and the processor "loading"; in one run the
set is empty until that callback and is not touched by the processor and
reporter callbacks. -/
theorem warnings_both_or_none (evs : List Event) (ev : Event) (s : AppState)
    (rw rb rv : ℚ) (data : ResponseData) (now : String) (hload : s.loading = false) :
    ((exec evs initialState).validationErrors = []
        ∨ (exec evs initialState).validationErrors
          = ["Temperature out of normal range", "Bitcoin rate fluctuation detected"])
      ∧ ((step ev s).validationErrors ≠ s.validationErrors →
          (∃ rw' rb', ev = Event.click rw' rb' ∧ (step ev s).validationErrors = [])
            ∨ (∃ rv', ev = Event.validatorTimer rv' ∧ hasValidationIssue rv' = true
                ∧ (step ev s).validationErrors = validationWarningStrings
                ∧ (step ev s).pipelineStatus = validatorAdvance s.pipelineStatus))
      ∧ (exec [Event.click rw rb] s).validationErrors = []
      ∧ (exec [Event.click rw rb, Event.resolve data now] s).validationErrors = []
      ∧ (exec [Event.click rw rb, Event.resolve data now,
            Event.validatorTimer rv] s).validationErrors
          = (if hasValidationIssue rv then validationWarningStrings else [])
      ∧ (exec [Event.click rw rb, Event.resolve data now, Event.validatorTimer rv,
            Event.processorTimer, Event.reporterTimer] s).validationErrors
          = (exec [Event.click rw rb, Event.resolve data now,
              Event.validatorTimer rv] s).validationErrors := by
  refine ⟨?_, ?_, ?_, ?_, ?_, ?_⟩
  · exact exec_invariant
      (fun s => s.validationErrors = [] ∨ s.validationErrors = validationWarningStrings)
      step_warnings_invariant evs initialState (Or.inl rfl)
  · intro hne
    rcases step_validationErrors ev s hne with h | ⟨rv', h1, h2, h3⟩
    · exact Or.inl h
    · right
      refine ⟨rv', h1, h2, h3, ?_⟩
      rw [h1]; rfl
  · rw [exec, step_click rw rb s hload]; rfl
  · rw [exec, step_click rw rb s hload]; rfl
  · rw [exec, step_click rw rb s hload]; rfl
  · simp only [exec, step_click rw rb s hload]
    rfl

theorem retrySample_range (r : ℚ) (h0 : 0 ≤ r) (h1 : r < 1) :
    retrySample r = 0 ∨ retrySample r = 1 := by
  unfold retrySample
  have hlo : (0 : Int) ≤ Int.floor (r * 2) := Int.floor_nonneg.mpr (by linarith)
  have hhi : Int.floor (r * 2) < 2 := by
    rw [Int.floor_lt]
    push_cast
    linarith
  omega

/-- Claim C25: for draws `0 ≤ r < 1` each sampled retry count is 0 or 1, so
both counts shown in `retryAttempts` are non-negative, and the `retries`
value of the success entry of the run is their sum, a value among 0, 1
and 2. -/
theorem retry_counts_range (s : AppState) (rw rb : ℚ) (data : ResponseData)
    (now : String) (hload : s.loading = false)
    (hw0 : 0 ≤ rw) (hw1 : rw < 1) (hb0 : 0 ≤ rb) (hb1 : rb < 1) :
    (retrySample rw = 0 ∨ retrySample rw = 1)
      ∧ (retrySample rb = 0 ∨ retrySample rb = 1)
      ∧ 0 ≤ (exec [Event.click rw rb] s).retryAttempts.weather
      ∧ 0 ≤ (exec [Event.click rw rb] s).retryAttempts.bitcoin
      ∧ ∃ k : Int, (k = 0 ∨ k = 1 ∨ k = 2)
          ∧ k = retrySample rw + retrySample rb
          ∧ (exec [Event.click rw rb, Event.resolve data now] s).history[0]?.map
              (fun h => h.retries) = some (some k) := by
  have hw := retrySample_range rw hw0 hw1
  have hb := retrySample_range rb hb0 hb1
  refine ⟨hw, hb, ?_, ?_, retrySample rw + retrySample rb, by omega, rfl, ?_⟩
  · rw [exec, step_click rw rb s hload]
    show 0 ≤ retrySample rw
    omega
  · rw [exec, step_click rw rb s hload]
    show 0 ≤ retrySample rb
    omega
  · have h : (exec [Event.click rw rb, Event.resolve data now] s).history = _ :=
      run_resolved_history s rw rb [] data now hload (by simp)
    rw [h]
    simp [appendHistory, successEntry]

/-! ## Location and request -/

theorem splitComma_of_no_comma (cs : List Char) (h : ',' ∉ cs) :
    splitComma cs = (cs, []) := by
  induction cs with
  | nil => rfl
  | cons c cs ih =>
    have hc : c ≠ ',' := fun e => h (e ▸ List.mem_cons_self _ _)
    have hcs : ',' ∉ cs := fun e => h (List.mem_cons_of_mem _ e)
    simp [splitComma, hc, ih hcs]

theorem locations_split (o : LocationOption) (ho : o ∈ locations) :
    ∃ p1 p2 : String, splitPieces o.value = [p1, p2] ∧ p1 ≠ "" ∧ p2 ≠ ""
      ∧ splitLoc o.value = p1 ∧ splitCountry o.value = some p2
      ∧ p1 ++ "," ++ p2 = o.value := by
  simp only [locations, List.mem_cons, List.mem_singleton, List.not_mem_nil, or_false] at ho
  rcases ho with rfl | rfl | rfl | rfl | rfl
  · exact ⟨"London", "uk", by decide⟩
  · exact ⟨"New York", "us", by decide⟩
  · exact ⟨"Tokyo", "jp", by decide⟩
  · exact ⟨"Paris", "fr", by decide⟩
  · exact ⟨"Sydney", "au", by decide⟩

/-- Claim C26: for each of the five values of `locations`, `split(',')`
yields exactly two pieces, both non-empty; the request of a run started with
that value selected carries the first piece as `location` and the second as
`country`; and the two pieces joined with "," give the value back.  When the
selected string holds no comma the request carries the whole string as
`location` and no `country`. -/
theorem request_from_location (s s' : AppState) (o : LocationOption) (rw rb : ℚ)
    (ho : o ∈ locations) (hs : s.location = o.value) (hload : s.loading = false)
    (hload' : s'.loading = false) (hc : ',' ∉ s'.location.data) :
    (∃ p1 p2 : String, splitPieces o.value = [p1, p2] ∧ p1 ≠ "" ∧ p2 ≠ ""
        ∧ (exec [Event.click rw rb] s).inflight.map requestOf
          = some { location := p1, country := some p2 }
        ∧ p1 ++ "," ++ p2 = o.value)
      ∧ (exec [Event.click rw rb] s').inflight.map requestOf
          = some { location := s'.location, country := none } := by
  constructor
  · obtain ⟨p1, p2, h1, h2, h3, h4, h5, h6⟩ := locations_split o ho
    refine ⟨p1, p2, h1, h2, h3, ?_, h6⟩
    rw [exec, step_click rw rb s hload]
    show some (requestOf _) = _
    simp only [requestOf, hs, h4, h5]
  · rw [exec, step_click rw rb s' hload']
    show some (requestOf _) = _
    simp only [requestOf, splitLoc, splitCountry, splitComma_of_no_comma _ hc,
      List.head?_nil, Option.map_none']

/-! ## Bounds on the statistics -/

theorem runEntries_append (a b : List Event) (s : AppState) :
    runEntries (a ++ b) s = runEntries a s ++ runEntries b (exec a s) := by
  induction a generalizing s with
  | nil => rfl
  | cons ev a ih =>
    rw [List.cons_append, runEntries, runEntries, exec, ih, List.append_assoc]

theorem stats_le_total (L : List HistoryEntry) :
    (calculateStatistics L).successful ≤ (calculateStatistics L).total
      ∧ (calculateStatistics L).failed ≤ (calculateStatistics L).total :=
  ⟨List.length_filter_le _ _, List.length_filter_le _ _⟩

/-- Claim C27: with `N` runs settled along a trace from the initial state,
`total` is `min N 20`, and `successful` and `failed` are at most 20; once 20
runs have settled, `total` is 20 after any continuation of the trace. -/
theorem total_is_capped (evs more : List Event) :
    (calculateStatistics (exec evs initialState).history).total
        = min (runEntries evs initialState).length 20
      ∧ (calculateStatistics (exec evs initialState).history).successful ≤ 20
      ∧ (calculateStatistics (exec evs initialState).history).failed ≤ 20
      ∧ (20 ≤ (runEntries evs initialState).length →
          (calculateStatistics (exec evs initialState).history).total = 20
            ∧ (calculateStatistics (exec (evs ++ more) initialState).history).total = 20) := by
  have htotal : ∀ t : List Event,
      (calculateStatistics (exec t initialState).history).total
        = min (runEntries t initialState).length 20 := by
    intro t
    simp only [calculateStatistics, exec_history t initialState (by decide)]
    have h0 : initialState.history = [] := rfl
    rw [h0, List.append_nil, List.length_take, List.length_reverse, min_comm]
  have hle := exec_history_length_le evs initialState (by decide)
  have hs := stats_le_total (exec evs initialState).history
  have ht : (calculateStatistics (exec evs initialState).history).total
      = (exec evs initialState).history.length := rfl
  refine ⟨htotal evs, by omega, by omega, ?_⟩
  intro h20
  rw [htotal evs, htotal (evs ++ more), runEntries_append, List.length_append]
  constructor
  · exact min_eq_right h20
  · exact min_eq_right (by omega)

theorem stats_cons_cases (e : HistoryEntry) (L : List HistoryEntry) :
    (e.status = "success"
        ∧ calculateStatistics (e :: L)
          = { total := (calculateStatistics L).total + 1
              successful := (calculateStatistics L).successful + 1
              failed := (calculateStatistics L).failed })
      ∨ (e.status = "error"
        ∧ calculateStatistics (e :: L)
          = { total := (calculateStatistics L).total + 1
              successful := (calculateStatistics L).successful
              failed := (calculateStatistics L).failed + 1 })
      ∨ (e.status ≠ "success" ∧ e.status ≠ "error"
        ∧ calculateStatistics (e :: L)
          = { total := (calculateStatistics L).total + 1
              successful := (calculateStatistics L).successful
              failed := (calculateStatistics L).failed }) := by
  by_cases h1 : e.status = "success"
  · have h2 : e.status ≠ "error" := by rw [h1]; decide
    exact Or.inl ⟨h1, by rw [stats_cons, if_pos h1, if_neg h2]; rfl⟩
  · by_cases h2 : e.status = "error"
    · exact Or.inr (Or.inl ⟨h2, by rw [stats_cons, if_neg h1, if_pos h2]; rfl⟩)
    · exact Or.inr (Or.inr ⟨h1, h2, by rw [stats_cons, if_neg h1, if_neg h2]; rfl⟩)

theorem stats_sum_le (L : List HistoryEntry) :
    (calculateStatistics L).successful + (calculateStatistics L).failed
      ≤ (calculateStatistics L).total := by
  induction L with
  | nil => exact Nat.le_refl 0
  | cons x L ih =>
    rcases stats_cons_cases x L with ⟨-, h⟩ | ⟨-, h⟩ | ⟨-, -, h⟩ <;>
      rw [h] <;> dsimp only <;> omega

/-- Claim C28: for every history, whatever the statuses of its entries,
`successful + failed ≤ total`, with equality exactly when every entry has
status "success" or "error"; an entry with another status adds 1 to `total`
and nothing to the two counts. -/
theorem stats_sum_le_total (L : List HistoryEntry) (e : HistoryEntry) :
    (calculateStatistics L).successful + (calculateStatistics L).failed
        ≤ (calculateStatistics L).total
      ∧ ((calculateStatistics L).successful + (calculateStatistics L).failed
          = (calculateStatistics L).total
        ↔ ∀ h ∈ L, h.status = "success" ∨ h.status = "error")
      ∧ (e.status ≠ "success" → e.status ≠ "error" →
          calculateStatistics (e :: L)
            = { total := (calculateStatistics L).total + 1
                successful := (calculateStatistics L).successful
                failed := (calculateStatistics L).failed }) := by
  refine ⟨stats_sum_le L, ?_, ?_⟩
  · induction L with
    | nil => simp [calculateStatistics]
    | cons x L ih =>
      have hL := stats_sum_le L
      simp only [List.mem_cons, forall_eq_or_imp]
      rcases stats_cons_cases x L with ⟨hx, h⟩ | ⟨hx, h⟩ | ⟨hx1, hx2, h⟩
      · rw [h, ← ih]
        dsimp only
        constructor
        · intro heq; exact ⟨Or.inl hx, by omega⟩
        · intro hh; have := hh.2; omega
      · rw [h, ← ih]
        dsimp only
        constructor
        · intro heq; exact ⟨Or.inr hx, by omega⟩
        · intro hh; have := hh.2; omega
      · rw [h]
        dsimp only
        constructor
        · intro heq; omega
        · intro hh
          rcases hh.1 with h1 | h1
          · exact absurd h1 hx1
          · exact absurd h1 hx2
  · intro h1 h2
    rw [stats_cons, if_neg h1, if_neg h2]
    rfl

/-! ## What the audit projection reads -/

theorem mockLogsFrom_congr (clock : Nat → Nat) :
    ∀ (k : Nat) (L L' : List HistoryEntry),
      L.map (fun e => (e.executionId, e.status, e.timestamp, e.location))
        = L'.map (fun e => (e.executionId, e.status, e.timestamp, e.location)) →
      mockLogsFrom clock k L = mockLogsFrom clock k L'
  | _, [], [], _ => rfl
  | _, [], _ :: _, h => by simp at h
  | _, _ :: _, [], h => by simp at h
  | k, x :: L, y :: L', h => by
    simp only [List.map_cons, List.cons.injEq, Prod.mk.injEq] at h
    obtain ⟨⟨h1, h2, h3, h4⟩, h5⟩ := h
    rw [mockLogsFrom, mockLogsFrom, mockLogsFrom_congr clock (k + 1) L L' h5]
    simp only [mockLog, h1, h2, h3, h4]

/-- Claim C29 as stated fails in its last part: when the executor assigned
the version "v2025-10-25_1761350400000" and the clock reads 1761350400000
while the row is built, the version label of the row is the version the
executor assigned. -/
theorem version_label_can_equal_executor_version :
    (exec [Event.click 0 0,
        Event.resolve ⟨"exec-1", "v2025-10-25_1761350400000"⟩ "t1"]
      initialState).history.map (fun h => h.version)
        = [some "v2025-10-25_1761350400000"]
      ∧ (fetchAuditLogs
          (exec [Event.click 0 0,
              Event.resolve ⟨"exec-1", "v2025-10-25_1761350400000"⟩ "t1"]
            initialState).history
          (fun _ => 1761350400000)).map (fun r => some r.version)
        = [some "v2025-10-25_1761350400000"] := by
  constructor
  · decide
  · have h : (exec [Event.click 0 0,
        Event.resolve ⟨"exec-1", "v2025-10-25_1761350400000"⟩ "t1"]
        initialState).history
        = [successEntry ⟨"London", some "uk", retrySample 0, retrySample 0, []⟩
            ⟨"exec-1", "v2025-10-25_1761350400000"⟩ "t1"] := by
      rfl
    rw [h]
    norm_num [fetchAuditLogs, mockLogsFrom, mockLog, versionLabel, decimal, Nat.digitChar]
    decide

/-- Claim C29 amended: two histories that agree entry by entry on
`executionId`, `status`, `timestamp` and `location` have equal audit
projections under the same clock, whatever their `version`, `retries`,
`validationWarnings` and `error`.  The version label of row `i` is built from
the clock reading alone; it equals the version the executor assigned to the
entry only when that version is the string "v2025-10-25_" followed by the
clock reading. -/
theorem audit_reads_four_fields (L L' : List HistoryEntry) (clock : Nat → Nat)
    (i : Nat) (e : HistoryEntry)
    (h : L.map (fun e => (e.executionId, e.status, e.timestamp, e.location))
      = L'.map (fun e => (e.executionId, e.status, e.timestamp, e.location)))
    (he : L[i]? = some e) :
    fetchAuditLogs L clock = fetchAuditLogs L' clock
      ∧ (fetchAuditLogs L clock)[i]?.map (fun r => r.version)
          = some ("v2025-10-25_" ++ decimal (clock i))
      ∧ ((fetchAuditLogs L clock)[i]?.map (fun r => some r.version) = some e.version
          ↔ e.version = some ("v2025-10-25_" ++ decimal (clock i))) := by
  refine ⟨mockLogsFrom_congr clock 0 L L' h, ?_, ?_⟩
  · rw [fetchAuditLogs_getElem?, he]; rfl
  · rw [fetchAuditLogs_getElem?, he]
    simp only [Option.map_some', mockLog, versionLabel, Option.some.injEq]
    exact eq_comm

/-! ## The loading flag -/

theorem act_background_loading (a : Action) (σ : Scheduled)
    (ha : a.isBackground = true) : (act a σ).app.loading = σ.app.loading := by
  cases a with
  | selectLocation v => rfl
  | fire i rv =>
    simp only [act]
    cases hk : σ.timers[i]? with
    | none => rfl
    | some k =>
      by_cases hc : canFire σ.timers i = true
      · simp only [hc, if_true]
        cases k <;> rfl
      · simp only [hc]
        rfl
  | click _ _ => simp [Action.isBackground] at ha
  | resolve _ _ => simp [Action.isBackground] at ha
  | reject _ _ => simp [Action.isBackground] at ha

theorem act_resolve_app (data : ResponseData) (now : String) (σ : Scheduled)
    (c : PendingCall) (h : σ.app.inflight = some c) :
    (act (Action.resolve data now) σ).app = triggerPipelineResolved c data now σ.app := by
  simp only [act, h, step]

theorem act_reject_app (message now : String) (σ : Scheduled)
    (c : PendingCall) (h : σ.app.inflight = some c) :
    (act (Action.reject message now) σ).app
      = triggerPipelineRejected c message now σ.app := by
  simp only [act, h, step]

theorem perform_background_loading (as : List Action) (σ : Scheduled)
    (h : ∀ a ∈ as, a.isBackground = true) :
    (perform as σ).app.loading = σ.app.loading := by
  induction as generalizing σ with
  | nil => rfl
  | cons a as ih =>
    rw [perform, ih _ (fun x hx => h x (List.mem_cons_of_mem _ hx)),
      act_background_loading a σ (h a (List.mem_cons_self _ _))]

/-- Claim C30: `loading` is true from the click on, also while callbacks of
earlier runs fire during the call, and is false after the call has settled,
by a response or by a rejection.  Right after a successful response the three
delayed advances of the run are pending, the reporter is not "success" (it
is "pending" when nothing else happened during the call), and a click starts
a new run at once: the statuses are reset while those advances are still
pending. -/
theorem loading_released (σ : Scheduled) (rw rb rw' rb' : ℚ) (mid : List Action)
    (data : ResponseData) (message now : String)
    (hload : σ.app.loading = false) (hmid : ∀ a ∈ mid, a.isBackground = true) :
    (perform (Action.click rw rb :: mid) σ).app.loading = true
      ∧ (perform (Action.click rw rb :: mid ++ [Action.resolve data now]) σ).app.loading
          = false
      ∧ (perform (Action.click rw rb :: mid ++ [Action.reject message now]) σ).app.loading
          = false
      ∧ (perform (Action.click rw rb :: mid ++ [Action.resolve data now]) σ).timers
          = (perform (Action.click rw rb :: mid) σ).timers
            ++ [TimerKind.validator, TimerKind.processor, TimerKind.reporter]
      ∧ (perform [Action.click rw rb, Action.resolve data now] σ).app.pipelineStatus.reporter
          = "pending"
      ∧ (perform [Action.click rw rb, Action.resolve data now,
            Action.click rw' rb'] σ).app.loading = true
      ∧ (perform [Action.click rw rb, Action.resolve data now,
            Action.click rw' rb'] σ).app.pipelineStatus = resetStatus
      ∧ (perform [Action.click rw rb, Action.resolve data now,
            Action.click rw' rb'] σ).timers
          = σ.timers ++ [TimerKind.validator, TimerKind.processor, TimerKind.reporter] := by
  have hin : (perform mid (act (Action.click rw rb) σ)).app.inflight
      = some ⟨splitLoc σ.app.location, splitCountry σ.app.location, retrySample rw,
          retrySample rb, σ.app.validationErrors⟩ := by
    rw [perform_background_inflight mid _ hmid, act_click rw rb σ hload]
    rfl
  have hl : (perform mid (act (Action.click rw rb) σ)).app.loading = true := by
    rw [perform_background_loading mid _ hmid, act_click rw rb σ hload]
    rfl
  refine ⟨hl, ?_, ?_, ?_, ?_, ?_, ?_, ?_⟩
  · rw [List.cons_append, perform, perform_append, perform, perform,
      act_resolve_app data now _ _ hin]
    rfl
  · rw [List.cons_append, perform, perform_append, perform, perform,
      act_reject_app message now _ _ hin]
    rfl
  · rw [List.cons_append, perform, perform_append, perform, perform, perform]
    exact act_resolve_timers data now _ _ hin
  · simp only [perform, act_click rw rb σ hload]
    rfl
  · simp only [perform, act_click rw rb σ hload]
    rfl
  · simp only [perform, act_click rw rb σ hload]
    rfl
  · simp only [perform, act_click rw rb σ hload]
    rfl

/-! ## Further instances at concrete inputs -/

theorem entry_shape_witness :
    errorEntry ⟨"London", some "uk", 0, 0, []⟩ "network error" "t1"
        ∈ (exec [Event.click 0 0, Event.reject "network error" "t1"] initialState).history
      ∧ (errorEntry ⟨"London", some "uk", 0, 0, []⟩ "network error" "t1").executionId
        = "N/A" :=
  ⟨by decide,
    (entry_shape [Event.click 0 0, Event.reject "network error" "t1"]
      (errorEntry ⟨"London", some "uk", 0, 0, []⟩ "network error" "t1")
      (by decide)).2.1 rfl⟩

theorem warnings_both_or_none_witness :
    initialState.loading = false
      ∧ (exec [Event.click 0 0, Event.resolve ⟨"exec-1", "v1"⟩ "t1"]
          initialState).validationErrors = [] :=
  ⟨by decide,
    (warnings_both_or_none [] (Event.validatorTimer 0) initialState 0 0 0
      ⟨"exec-1", "v1"⟩ "t1" (by decide)).2.2.2.1⟩

theorem retry_counts_range_witness :
    initialState.loading = false
      ∧ (0 : ℚ) ≤ 1 / 2 ∧ (1 / 2 : ℚ) < 1 ∧ (0 : ℚ) ≤ 3 / 4 ∧ (3 / 4 : ℚ) < 1
      ∧ (retrySample (1 / 2) = 0 ∨ retrySample (1 / 2) = 1)
      ∧ (retrySample (3 / 4) = 0 ∨ retrySample (3 / 4) = 1) :=
  ⟨by decide, by norm_num, by norm_num, by norm_num, by norm_num,
    (retry_counts_range initialState (1 / 2) (3 / 4) ⟨"exec-1", "v1"⟩ "t1" (by decide)
      (by norm_num) (by norm_num) (by norm_num) (by norm_num)).1,
    (retry_counts_range initialState (1 / 2) (3 / 4) ⟨"exec-1", "v1"⟩ "t1" (by decide)
      (by norm_num) (by norm_num) (by norm_num) (by norm_num)).2.1⟩

theorem request_from_location_witness :
    ({ value := "Tokyo,jp", label := "Tokyo, Japan" } : LocationOption) ∈ locations
      ∧ { initialState with location := "Tokyo,jp" }.loading = false
      ∧ { initialState with location := "Lagos" }.loading = false
      ∧ ',' ∉ { initialState with location := "Lagos" }.location.data
      ∧ (exec [Event.click 0 0] { initialState with location := "Lagos" }).inflight.map
          requestOf = some { location := "Lagos", country := none } :=
  ⟨by decide, by decide, by decide, by decide,
    (request_from_location { initialState with location := "Tokyo,jp" }
      { initialState with location := "Lagos" }
      { value := "Tokyo,jp", label := "Tokyo, Japan" } 0 0
      (by decide) rfl (by decide) (by decide) (by decide)).2⟩

theorem total_is_capped_witness :
    20 ≤ (runEntries (sampleRuns 21) initialState).length
      ∧ (calculateStatistics
          (exec (sampleRuns 21 ++ sampleRuns 2) initialState).history).total = 20 :=
  ⟨by decide, ((total_is_capped (sampleRuns 21) (sampleRuns 2)).2.2.2 (by decide)).2⟩

theorem stats_sum_le_total_witness :
    { sampleEntry 0 with status := "running" }.status ≠ "success"
      ∧ { sampleEntry 0 with status := "running" }.status ≠ "error"
      ∧ calculateStatistics [{ sampleEntry 0 with status := "running" }, sampleEntry 1]
        = { total := 2, successful := 1, failed := 0 } :=
  ⟨by decide, by decide,
    (stats_sum_le_total [sampleEntry 1] { sampleEntry 0 with status := "running" }).2.2
      (by decide) (by decide)⟩

theorem audit_reads_four_fields_witness :
    [sampleEntry 0].map (fun e => (e.executionId, e.status, e.timestamp, e.location))
        = [{ sampleEntry 0 with version := none, retries := some 5 }].map
            (fun e => (e.executionId, e.status, e.timestamp, e.location))
      ∧ [sampleEntry 0][0]? = some (sampleEntry 0)
      ∧ fetchAuditLogs [sampleEntry 0] (fun _ => 7)
        = fetchAuditLogs [{ sampleEntry 0 with version := none, retries := some 5 }]
            (fun _ => 7) :=
  ⟨by decide, rfl,
    (audit_reads_four_fields [sampleEntry 0]
      [{ sampleEntry 0 with version := none, retries := some 5 }] (fun _ => 7) 0
      (sampleEntry 0) (by decide) rfl).1⟩

theorem loading_released_witness :
    (perform [Action.click 0 0, Action.resolve ⟨"exec-1", "v1"⟩ "t1"]
        initialScheduled).app.loading = false
      ∧ (∀ a ∈ [Action.fire 0 0], a.isBackground = true)
      ∧ (perform (Action.click 0 0 :: [Action.fire 0 0]
            ++ [Action.reject "network error" "t2"])
          (perform [Action.click 0 0, Action.resolve ⟨"exec-1", "v1"⟩ "t1"]
            initialScheduled)).app.loading = false :=
  ⟨by decide, by decide,
    (loading_released
      (perform [Action.click 0 0, Action.resolve ⟨"exec-1", "v1"⟩ "t1"] initialScheduled)
      0 0 0 0 [Action.fire 0 0] ⟨"exec-2", "v1"⟩ "network error" "t2"
      (by decide) (by decide)).2.2.1⟩


/-! ## The collector across overlapping runs -/

theorem act_background_of_no_timers (a : Action) (σ : Scheduled)
    (ha : a.isBackground = true) (ht : σ.timers = []) :
    (act a σ).timers = [] ∧ (act a σ).app.pipelineStatus = σ.app.pipelineStatus := by
  cases a with
  | selectLocation v => exact ⟨ht, rfl⟩
  | fire i rv =>
    have : σ.timers[i]? = none := by rw [ht]; rfl
    simp only [act, this]
    exact ⟨ht, trivial⟩
  | click _ _ => simp [Action.isBackground] at ha
  | resolve _ _ => simp [Action.isBackground] at ha
  | reject _ _ => simp [Action.isBackground] at ha

theorem perform_background_of_no_timers (as : List Action) (σ : Scheduled)
    (h : ∀ a ∈ as, a.isBackground = true) (ht : σ.timers = []) :
    (perform as σ).timers = []
      ∧ (perform as σ).app.pipelineStatus = σ.app.pipelineStatus := by
  induction as generalizing σ with
  | nil => exact ⟨ht, rfl⟩
  | cons a as ih =>
    obtain ⟨h1, h2⟩ := act_background_of_no_timers a σ (h a (List.mem_cons_self _ _)) ht
    obtain ⟨h3, h4⟩ := ih (act a σ) (fun x hx => h x (List.mem_cons_of_mem _ hx)) h1
    exact ⟨h3, h4.trans h2⟩

theorem act_collector_success (a : Action) (τ : Scheduled)
    (h0 : τ.app.pipelineStatus.collector ≠ "success")
    (h1 : (act a τ).app.pipelineStatus.collector = "success") :
    (∃ data now c, a = Action.resolve data now ∧ τ.app.inflight = some c)
      ∨ (∃ i rv, a = Action.fire i rv ∧ τ.timers[i]? = some TimerKind.reporter
          ∧ canFire τ.timers i = true) := by
  cases a with
  | selectLocation v => exact absurd h1 h0
  | click rw rb =>
    exfalso
    have h2 : (step (Event.click rw rb) τ.app).pipelineStatus.collector = "success" := h1
    simp only [step] at h2
    split at h2
    · exact h0 h2
    · simp [triggerPipelineStart, resetRun, resetStatus] at h2
  | resolve data now =>
    cases hc : τ.app.inflight with
    | none =>
      exfalso
      simp only [act, hc] at h1
      exact h0 h1
    | some c => exact Or.inl ⟨data, now, c, rfl, rfl⟩
  | reject message now =>
    exfalso
    have h2 : (step (Event.reject message now) τ.app).pipelineStatus.collector
        = "success" := h1
    simp only [step] at h2
    cases hc : τ.app.inflight with
    | none => rw [hc] at h2; exact h0 h2
    | some c =>
      rw [hc] at h2
      exact h0 (markFailed_success τ.app.pipelineStatus Stage.collector h2)
  | fire i rv =>
    cases hk : τ.timers[i]? with
    | none =>
      exfalso
      simp only [act, hk] at h1
      exact h0 h1
    | some k =>
      by_cases hc : canFire τ.timers i = true
      · cases k with
        | validator =>
          exfalso
          simp only [act, hk, hc, if_true] at h1
          exact h0 h1
        | processor =>
          exfalso
          simp only [act, hk, hc, if_true] at h1
          exact h0 h1
        | reporter => exact Or.inr ⟨i, rv, rfl, hk, hc⟩
      · exfalso
        simp only [act, hk, hc] at h1
        exact h0 h1

/-- Claim C22 as stated fails: a second run is clicked while the three
advances of the first are pending.  They fire during the second call: the
call is still in flight and all four stages, the collector included, are
"success".  The second call is then rejected and the run ends with the
validator, processor and reporter "success".  With only the validator advance
of the first run in between, the rejected run ends with the validator
"success". -/
theorem earlier_advances_mark_rejected_run :
    (perform [Action.click 0 0, Action.resolve ⟨"exec-1", "v1"⟩ "t1", Action.click 0 0,
        Action.fire 0 0, Action.fire 0 0, Action.fire 0 0] initialScheduled).app.loading
      = true
    ∧ (perform [Action.click 0 0, Action.resolve ⟨"exec-1", "v1"⟩ "t1", Action.click 0 0,
        Action.fire 0 0, Action.fire 0 0, Action.fire 0 0]
        initialScheduled).app.inflight.isSome = true
    ∧ (perform [Action.click 0 0, Action.resolve ⟨"exec-1", "v1"⟩ "t1", Action.click 0 0,
        Action.fire 0 0, Action.fire 0 0, Action.fire 0 0]
        initialScheduled).app.pipelineStatus
      = { collector := "success", validator := "success",
          processor := "success", reporter := "success" }
    ∧ (perform [Action.click 0 0, Action.resolve ⟨"exec-1", "v1"⟩ "t1", Action.click 0 0,
        Action.fire 0 0, Action.fire 0 0, Action.fire 0 0,
        Action.reject "network error" "t2"] initialScheduled).app.pipelineStatus
      = { collector := "error", validator := "success",
          processor := "success", reporter := "success" }
    ∧ (perform [Action.click 0 0, Action.resolve ⟨"exec-1", "v1"⟩ "t1", Action.click 0 0,
        Action.fire 0 0, Action.reject "network error" "t2"]
        initialScheduled).app.pipelineStatus
      = { collector := "error", validator := "success",
          processor := "loading", reporter := "pending" } := by
  decide

/-- Claim C22 amended: collector is marked "success" only after a successful
executor response, which need not be the response of the current run.  The
reset and the failure update of a run write no "success".  An action turns
the collector "success" only as the continuation of a successful response or
as a reporter advance that such a response set, so along any trace from the
mounted component the collector is "success" only after a successful
response.  For a run started while no advance is pending: the statuses stay
(loading, pending, pending, pending) during the call, a rejection ends with
(error, pending, pending, pending), and a successful response gives
(success, loading, pending, pending). -/
theorem collector_success_sources (σ τ : Scheduled) (a : Action) (as mid : List Action)
    (c : PendingCall) (rw rb : ℚ) (data : ResponseData) (message now : String)
    (t : Stage) (hload : σ.app.loading = false) (htimers : σ.timers = [])
    (hmid : ∀ x ∈ mid, x.isBackground = true) :
    (∀ s : AppState, s.loading = false →
        (step (Event.click rw rb) s).pipelineStatus.get t ≠ "success")
      ∧ ((triggerPipelineRejected c message now τ.app).pipelineStatus.get t = "success" →
          τ.app.pipelineStatus.get t = "success")
      ∧ (τ.app.pipelineStatus.collector ≠ "success" →
          (act a τ).app.pipelineStatus.collector = "success" →
          (∃ data' now' c', a = Action.resolve data' now' ∧ τ.app.inflight = some c')
            ∨ (∃ i rv, a = Action.fire i rv ∧ τ.timers[i]? = some TimerKind.reporter
                ∧ canFire τ.timers i = true))
      ∧ ((perform as initialScheduled).app.pipelineStatus.collector = "success" →
          ∃ data' now', Action.resolve data' now' ∈ as)
      ∧ (perform (Action.click rw rb :: mid) σ).app.pipelineStatus
          = { collector := "loading", validator := "pending",
              processor := "pending", reporter := "pending" }
      ∧ (perform (Action.click rw rb :: mid ++ [Action.reject message now])
            σ).app.pipelineStatus
          = { collector := "error", validator := "pending",
              processor := "pending", reporter := "pending" }
      ∧ (perform (Action.click rw rb :: mid ++ [Action.resolve data now])
            σ).app.pipelineStatus
          = { collector := "success", validator := "loading",
              processor := "pending", reporter := "pending" } := by
  have hin : (perform mid (act (Action.click rw rb) σ)).app.inflight
      = some ⟨splitLoc σ.app.location, splitCountry σ.app.location, retrySample rw,
          retrySample rb, σ.app.validationErrors⟩ := by
    rw [perform_background_inflight mid _ hmid, act_click rw rb σ hload]
    rfl
  have hst : (perform mid (act (Action.click rw rb) σ)).app.pipelineStatus
      = resetStatus := by
    rw [(perform_background_of_no_timers mid _ hmid
      (by rw [act_click rw rb σ hload]; exact htimers)).2, act_click rw rb σ hload]
    rfl
  refine ⟨?_, markFailed_success τ.app.pipelineStatus t, act_collector_success a τ, ?_,
    hst, ?_, ?_⟩
  · intro s hs
    rw [step_click rw rb s hs]
    have h : (triggerPipelineStart rw rb s).pipelineStatus = resetStatus := rfl
    rw [h]
    cases t <;> decide
  · intro hc
    rcases perform_noResponseYet as initialScheduled ⟨rfl, by decide⟩ with h | h
    · exact absurd hc h.2
    · exact h
  · rw [List.cons_append, perform, perform_append, perform, perform,
      act_reject_app message now _ _ hin]
    show markFailed _ = _
    rw [hst]
    decide
  · rw [List.cons_append, perform, perform_append, perform, perform,
      act_resolve_app data now _ _ hin]
    show collectorAdvance _ = _
    rw [hst]
    decide

theorem collector_success_sources_witness :
    initialScheduled.app.loading = false
      ∧ initialScheduled.timers = []
      ∧ (∀ x ∈ [Action.fire 0 0, Action.selectLocation "Tokyo,jp"],
          x.isBackground = true)
      ∧ (perform (Action.click 0 0 :: [Action.fire 0 0, Action.selectLocation "Tokyo,jp"]
            ++ [Action.reject "network error" "t1"]) initialScheduled).app.pipelineStatus
        = { collector := "error", validator := "pending",
            processor := "pending", reporter := "pending" } :=
  ⟨by decide, by decide, by decide,
    (collector_success_sources initialScheduled initialScheduled (Action.fire 0 0) []
      [Action.fire 0 0, Action.selectLocation "Tokyo,jp"] ⟨"London", some "uk", 0, 0, []⟩
      0 0 ⟨"exec-1", "v1"⟩ "network error" "t1" Stage.collector
      (by decide) (by decide) (by decide)).2.2.2.2.2.1⟩

end App
